import Mathlib

/-!
Airdrop registry: chain registry, leaderboard handlers and season shares.

A shallow embedding of `internal/common/chain.go` and of the vault handlers of
`internal/handlers/vault_handler.go`, followed by the properties proved about them.

Conventions of the embedding:

* a Go `string` is its sequence of bytes (`GoString`); `len` and slicing count bytes;
* `int`, `int64` and `uint` are 64 bits wide; arithmetic that can overflow wraps explicitly;
* a Go `error` is a message (`GoError`); a function returning `(T, error)` returns a pair or
  an `Except`;
* a pointer receiver is passed in and the updated value is returned;
* calls of the persistence layer (`a.s`) and float divisions are recorded in a trace.
-/

/-! ## Go strings -/

/-- A Go string: an immutable sequence of bytes. -/
abbrev GoString := List UInt8

/-- A Go error value, represented by its message. -/
abbrev GoError := String

/-- The bytes of a string literal of the source (UTF-8, as the Go compiler stores it). -/
def gostr (s : String) : GoString := (s.data.map String.utf8EncodeChar).flatten

/-! ## `internal/common/chain.go` -/

namespace common

/-- Go `type Chain int`: every integer is a value of the type. -/
structure Chain where
  val : Int
  deriving DecidableEq, Repr

def Undefined : Chain := ⟨0⟩
def THORChain : Chain := ⟨1⟩
def Solana : Chain := ⟨2⟩
def Ethereum : Chain := ⟨3⟩
def Avalanche : Chain := ⟨4⟩
def BscChain : Chain := ⟨5⟩
def Bitcoin : Chain := ⟨6⟩
def BitcoinCash : Chain := ⟨7⟩
def Litecoin : Chain := ⟨8⟩
def Dogecoin : Chain := ⟨9⟩
def GaiaChain : Chain := ⟨10⟩
def Kujira : Chain := ⟨11⟩
def Dash : Chain := ⟨12⟩
def MayaChain : Chain := ⟨13⟩
def Arbitrum : Chain := ⟨14⟩
def Base : Chain := ⟨15⟩
def Optimism : Chain := ⟨16⟩
def Polygon : Chain := ⟨17⟩
def Blast : Chain := ⟨18⟩
def CronosChain : Chain := ⟨19⟩
def Sui : Chain := ⟨20⟩
def Polkadot : Chain := ⟨21⟩
def Zksync : Chain := ⟨22⟩
def Dydx : Chain := ⟨23⟩
def Ton : Chain := ⟨24⟩
def Terra : Chain := ⟨25⟩
def TerraClassic : Chain := ⟨26⟩
def XRP : Chain := ⟨27⟩
def Osmosis : Chain := ⟨28⟩
def Noble : Chain := ⟨29⟩
def Tron : Chain := ⟨30⟩
def Akash : Chain := ⟨31⟩
def Zcash : Chain := ⟨32⟩

/-- The 32 named constants of the `const` block, `THORChain` .. `Zcash`, in declaration order. -/
def namedChains : List Chain :=
  [THORChain, Solana, Ethereum, Avalanche, BscChain, Bitcoin, BitcoinCash, Litecoin, Dogecoin,
   GaiaChain, Kujira, Dash, MayaChain, Arbitrum, Base, Optimism, Polygon, Blast, CronosChain,
   Sui, Polkadot, Zksync, Dydx, Ton, Terra, TerraClassic, XRP, Osmosis, Noble, Tron, Akash,
   Zcash]

/-- The map literal `chainToString`, entry by entry in source order. -/
def chainToString : List (Chain × GoString) :=
  [ (THORChain, gostr "THORChain"),
    (Solana, gostr "Solana"),
    (Ethereum, gostr "Ethereum"),
    (Avalanche, gostr "Avalanche"),
    (BscChain, gostr "BSC"),
    (Bitcoin, gostr "Bitcoin"),
    (BitcoinCash, gostr "BitcoinCash"),
    (Litecoin, gostr "Litecoin"),
    (Dogecoin, gostr "Dogecoin"),
    (GaiaChain, gostr "Cosmos"),
    (Kujira, gostr "Kujira"),
    (Dash, gostr "Dash"),
    (MayaChain, gostr "MayaChain"),
    (Arbitrum, gostr "Arbitrum"),
    (Base, gostr "Base"),
    (Optimism, gostr "Optimism"),
    (Polygon, gostr "Polygon"),
    (Blast, gostr "Blast"),
    (CronosChain, gostr "CronosChain"),
    (Sui, gostr "Sui"),
    (Polkadot, gostr "Polkadot"),
    (Zksync, gostr "Zksync"),
    (Dydx, gostr "Dydx"),
    (Ton, gostr "TON"),
    (Terra, gostr "Terra"),
    (TerraClassic, gostr "TerraClassic"),
    (XRP, gostr "XRP"),
    (Osmosis, gostr "Osmosis"),
    (Noble, gostr "Noble"),
    (Tron, gostr "Tron"),
    (Akash, gostr "Akash"),
    (Zcash, gostr "Zcash") ]

/-- The map literal `chainDerivePath`, entry by entry in source order. -/
def chainDerivePath : List (Chain × GoString) :=
  [ (Bitcoin, gostr "m/84'/0'/0'/0/0"),
    (Ethereum, gostr "m/44'/60'/0'/0/0"),
    (THORChain, gostr "m/44'/931'/0'/0/0"),
    (MayaChain, gostr "m/44'/931'/0'/0/0"),
    (Arbitrum, gostr "m/44'/60'/0'/0/0"),
    (Avalanche, gostr "m/44'/60'/0'/0/0"),
    (BscChain, gostr "m/44'/60'/0'/0/0"),
    (Base, gostr "m/44'/60'/0'/0/0"),
    (BitcoinCash, gostr "m/44'/145'/0'/0/0"),
    (Blast, gostr "m/44'/60'/0'/0/0"),
    (CronosChain, gostr "m/44'/60'/0'/0/0"),
    (Dash, gostr "m/44'/5'/0'/0/0"),
    (Dogecoin, gostr "m/44'/3'/0'/0/0"),
    (Dydx, gostr "m/44'/118'/0'/0/0"),
    (GaiaChain, gostr "m/44'/118'/0'/0/0"),
    (Kujira, gostr "m/44'/118'/0'/0/0"),
    (Terra, gostr "m/44'/330'/0'/0/0"),
    (TerraClassic, gostr "m/44'/330'/0'/0/0"),
    (Litecoin, gostr "m/84'/2'/0'/0/0"),
    (Optimism, gostr "m/44'/60'/0'/0/0"),
    (Polygon, gostr "m/44'/60'/0'/0/0"),
    (Zksync, gostr "m/44'/60'/0'/0/0"),
    (Solana, gostr ""),
    (Sui, gostr ""),
    (Polkadot, gostr ""),
    (Ton, gostr ""),
    (XRP, gostr "m/44'/144'/0'/0/0"),
    (Osmosis, gostr "m/44'/118'/0'/0/0"),
    (Noble, gostr "m/44'/118'/0'/0/0"),
    (Tron, gostr "m/44'/195'/0'/0/0"),
    (Akash, gostr "m/44'/118'/0'/0/0"),
    (Zcash, gostr "m/44'/133'/0'/0/0") ]

/-- The part of `encoding/json` the chain methods call, on a value of type `string`:
`Marshal` is `json.Marshal(s)`, `Unmarshal` is `json.Unmarshal(data, &s)` for a fresh
`var s string` (the decoded string, or the error). The library is not part of the
repository, so it is a parameter of the methods that call it. -/
structure JSONString where
  Marshal : GoString → List UInt8 × Option GoError
  Unmarshal : List UInt8 → Except GoError GoString

/-- A value handed to `Scan` by `database/sql`: `nil`, a `[]byte`, or a value of any other
dynamic type (`int64`, `float64`, `bool`, `string`, `time.Time`). -/
inductive DriverValue where
  | null
  | bytes (b : List UInt8)
  | other
  deriving DecidableEq, Repr

/-- The loop `for key, value := range chainToString { if value == s { return key } }`:
the key of the first entry, in the iteration order `order`, whose value is `s`.
Go leaves the iteration order of a map unspecified, so `order` is any permutation of the
entries. -/
def rangeFind (order : List (Chain × GoString)) (s : GoString) : Option Chain :=
  (order.find? (fun kv => kv.2 == s)).map Prod.fst

/-- Go `func (c Chain) String() string`. -/
def Chain.String (c : Chain) : GoString :=
  match chainToString.lookup c with
  | some str => str
  | none => gostr "UNKNOWN"

/-- Go `func (c Chain) MarshalJSON() ([]byte, error)`. -/
def Chain.MarshalJSON (json : JSONString) (c : Chain) : List UInt8 × Option GoError :=
  json.Marshal c.String

/-- Go `func (c *Chain) UnmarshalJSON(data []byte) error`: the receiver after the call and
the returned error. -/
def Chain.UnmarshalJSON (json : JSONString) (order : List (Chain × GoString))
    (c : Chain) (data : List UInt8) : Chain × Option GoError :=
  match json.Unmarshal data with
  | .error err => (c, some err)
  | .ok chainStr =>
    match rangeFind order chainStr with
    | some key => (key, none)
    | none => (c, none)

/-- Go `func (c Chain) Value() (driver.Value, error)`: the value is always a `string`. -/
def Chain.Value (c : Chain) : GoString × Option GoError :=
  (c.String, none)

/-- Go `func (c *Chain) Scan(value interface{}) error`: the receiver after the call and the
returned error. -/
def Chain.Scan (order : List (Chain × GoString)) (c : Chain) (value : DriverValue) :
    Chain × Option GoError :=
  match value with
  | .null => (⟨0⟩, none)
  | .other => (c, some "failed to scan Chain enum")
  | .bytes str =>
    match rangeFind order str with
    | some key => (key, none)
    | none => (c, none)

/-- Go `func (c *Chain) GetDerivePath() string`. -/
def Chain.GetDerivePath (c : Chain) : GoString :=
  match chainDerivePath.lookup c with
  | some str => str
  | none => gostr ""

/-- Go `func (c *Chain) IsEdDSA() bool`. -/
def Chain.IsEdDSA (c : Chain) : Bool :=
  if c = Solana ∨ c = Sui ∨ c = Polkadot ∨ c = Ton then true else false

/-- A sample of `encoding/json` on strings that need no escaping: the string between two
double quotes. Used to instantiate the library parameter at concrete inputs. -/
def quotedJSON : JSONString where
  Marshal s := ([34] ++ s ++ [34], none)
  Unmarshal data :=
    match data with
    | 34 :: rest =>
      if rest.getLast? = some 34 then .ok rest.dropLast
      else .error "unexpected end of JSON input"
    | _ => .error "json: cannot unmarshal into Go value of type string"

end common

/-! ## `float64`

IEEE 754 binary64 with round-to-nearest, ties-to-even, as Go evaluates `float64` arithmetic.
A finite non-zero value is the rational it denotes; the two zeros are `fin 0` and `negZero`. -/

/-- A `float64` value. -/
inductive Float64 where
  | nan
  | inf (neg : Bool)
  | negZero
  | fin (q : ℚ)
  deriving DecidableEq

namespace Float64

/-- The rational `2 ^ e`. -/
def pow2 (e : Int) : ℚ :=
  if 0 ≤ e then ((2 ^ e.toNat : Nat) : ℚ) else 1 / ((2 ^ (-e).toNat : Nat) : ℚ)

/-- Binary logarithm by repeated halving, at most `fuel` times. -/
def log2Fuel : Nat → Nat → Nat
  | 0, _ => 0
  | fuel + 1, n => if 2 ≤ n then log2Fuel fuel (n / 2) + 1 else 0

/-- The integer `⌊log₂ n⌋` of a positive natural number (`0` for `0`). -/
def ilog2 (n : Nat) : Nat := log2Fuel n n

/-- The integer `⌊log₂ q⌋` of a positive rational: the binary exponent of `q`. -/
def flog2 (q : ℚ) : Int :=
  let d : Int := (ilog2 q.num.natAbs : Int) - (ilog2 q.den : Int)
  if pow2 d ≤ q then d else d - 1

/-- The integer nearest to `n ≥ 0`, the even one of the two when `n` is half-way. -/
def roundNearestEven (n : ℚ) : Nat :=
  let f := ⌊n⌋₊
  let r := n - f
  if r < 1 / 2 then f else if 1 / 2 < r then f + 1 else if f % 2 = 0 then f else f + 1

/-- The magnitude `q > 0` rounded to 53 significant bits, or to a multiple of `2 ^ (-1074)`
in the subnormal range; the exponent is not yet bounded above. -/
def roundMag (q : ℚ) : ℚ :=
  let e := max (flog2 q) (-1022)
  let ulp := pow2 (e - 52)
  (roundNearestEven (q / ulp) : ℚ) * ulp

/-- The zero of the given sign. -/
def zero (neg : Bool) : Float64 := if neg then negZero else fin 0

/-- The `float64` nearest to the real number of sign `neg` and magnitude `q ≥ 0`: overflow
gives an infinity, underflow a signed zero. -/
def round (neg : Bool) (q : ℚ) : Float64 :=
  if q = 0 then zero neg
  else
    let v := roundMag q
    if pow2 1024 ≤ v then inf neg
    else if v = 0 then zero neg
    else fin (if neg then -v else v)

/-- The sign bit (`false` for a NaN, whose sign no operation below reads). -/
def sign : Float64 → Bool
  | nan => false
  | inf s => s
  | negZero => true
  | fin q => decide (q < 0)

/-- The value of a finite `float64` (`0` for NaN and the infinities). -/
def val : Float64 → ℚ
  | fin q => q
  | _ => 0

/-- The magnitude of a finite `float64`. -/
def mag (x : Float64) : ℚ := |x.val|

/-- Conversion `float64(n)` of an untyped non-negative integer constant. -/
def ofNat (n : Nat) : Float64 := round false n

/-- Go `x / y` on `float64`. -/
def div : Float64 → Float64 → Float64
  | nan, _ => nan
  | _, nan => nan
  | inf _, inf _ => nan
  | inf s, y => inf (xor s y.sign)
  | x, inf s => zero (xor x.sign s)
  | x, y =>
    if y.mag = 0 then (if x.mag = 0 then nan else inf (xor x.sign y.sign))
    else round (xor x.sign y.sign) (x.mag / y.mag)

/-- Go `x * y` on `float64`. -/
def mul : Float64 → Float64 → Float64
  | nan, _ => nan
  | _, nan => nan
  | inf s, inf t => inf (xor s t)
  | inf s, y => if y.mag = 0 then nan else inf (xor s y.sign)
  | x, inf s => if x.mag = 0 then nan else inf (xor x.sign s)
  | x, y => round (xor x.sign y.sign) (x.mag * y.mag)

/-- Go `x < y` on `float64`: false when either side is a NaN. -/
def lt : Float64 → Float64 → Bool
  | nan, _ => false
  | _, nan => false
  | inf s, inf t => s && !t
  | inf s, _ => s
  | _, inf t => !t
  | x, y => decide (x.val < y.val)

/-- Go `x == y` on `float64`: false when either side is a NaN, true for the two zeros. -/
def eq : Float64 → Float64 → Bool
  | nan, _ => false
  | _, nan => false
  | inf s, inf t => s == t
  | inf _, _ => false
  | _, inf _ => false
  | x, y => decide (x.val = y.val)

/-- Go `int64(x)` for a `float64`: the fraction is discarded. For a NaN, an infinity or a
value outside the range of `int64` Go leaves the result to the implementation; the value
given here is the one of amd64. -/
def toInt64 : Float64 → Int
  | fin q =>
    let t : Int := if q < 0 then -(⌊-q⌋₊ : Int) else (⌊q⌋₊ : Int)
    if -(2 : Int) ^ 63 ≤ t ∧ t < (2 : Int) ^ 63 then t else -(2 : Int) ^ 63
  | negZero => 0
  | _ => -(2 : Int) ^ 63

end Float64

/-- Go's wrap-around of a mathematical integer into `int64`. -/
def wrapInt64 (n : Int) : Int := (n + 2 ^ 63) % 2 ^ 64 - 2 ^ 63

/-! ## `strconv` -/

namespace strconv

/-- The value of a decimal digit byte. -/
def digitVal (b : UInt8) : Option Nat :=
  if 48 ≤ b ∧ b ≤ 57 then some (b.toNat - 48) else none

/-- The value of a run of decimal digits after the accumulated value `acc`; `none` at the
first byte that is no decimal digit. -/
def parseDigits : List UInt8 → Nat → Option Nat
  | [], acc => some acc
  | b :: bs, acc =>
    match digitVal b with
    | none => none
    | some d => parseDigits bs (acc * 10 + d)

/-- Go `strconv.ParseUint(s, 10, 64)`: `none` stands for a non-nil error (empty input, a byte
that is no digit, a value of 2^64 or more). -/
def ParseUint (s : GoString) : Option Nat :=
  if s = [] then none
  else
    match parseDigits s 0 with
    | none => none
    | some n => if n < 2 ^ 64 then some n else none

/-- Go `strconv.ParseInt(s, 10, 64)`: an optional sign, then the digits; `none` stands for a
non-nil error (syntax, or a value outside `int64`). -/
def ParseInt (s : GoString) : Option Int :=
  match s with
  | [] => none
  | b :: rest =>
    let neg := decide (b = 45)
    let body := if b = 43 ∨ b = 45 then rest else s
    match ParseUint body with
    | none => none
    | some un =>
      if !neg && decide (2 ^ 63 ≤ un) then none
      else if neg && decide (2 ^ 63 < un) then none
      else some (if neg then -(un : Int) else (un : Int))

/-- Go `strconv.Atoi(s)`, with `int` 64 bits wide. -/
def Atoi (s : GoString) : Option Int := ParseInt s

end strconv

/-! ## `internal/models`

The declarations of the records are not among the sources; the fields are the ones the
handlers read and write, with the types their use in the handlers gives them. -/

namespace models

/-- Go `models.Vault`, with `CreatedAt` already as `Model.CreatedAt.UTC().Unix()`. -/
structure Vault where
  ID : Nat
  Name : GoString
  Alias : GoString
  ECDSA : GoString
  EDDSA : GoString
  Uid : GoString
  HexChainCode : GoString
  TotalPoints : Float64
  JoinAirdrop : Bool
  Rank : Int
  Balance : Int
  LPValue : Int
  NFTValue : Int
  SwapVolume : Float64
  CreatedAt : Int
  AvatarURL : GoString
  ShowNameInLeaderboard : Bool
  ReferralCode : GoString
  ReferralCount : Int
  CurrentSeasonID : Nat
  deriving DecidableEq

/-- Go `models.SeasonStats`. -/
structure SeasonStats where
  SeasonID : Nat
  Rank : Int
  Points : Float64
  deriving DecidableEq

/-- Go `models.CoinDBModel`: a stored coin. -/
structure CoinDBModel where
  ID : Nat
  VaultID : Nat
  Chain : common.Chain
  Address : GoString
  HexPublicKey : GoString
  deriving DecidableEq

/-- Go `models.ChainCoins`: the coins of one chain; an entry of `Coins` stands for
`models.NewCoin` of the stored coin. -/
structure ChainCoins where
  Name : common.Chain
  Address : GoString
  HexPublicKey : GoString
  Coins : List CoinDBModel
  deriving DecidableEq

/-- Go `models.VaultResponse`. -/
structure VaultResponse where
  UId : GoString := []
  Name : GoString := []
  Alias : GoString := []
  PublicKeyECDSA : GoString := []
  PublicKeyEDDSA : GoString := []
  TotalPoints : Float64 := .fin 0
  JoinAirdrop : Bool := false
  Rank : Int := 0
  Balance : Int := 0
  LPValue : Int := 0
  NFTValue : Int := 0
  SwapVolume : Float64 := .fin 0
  RegisteredAt : Int := 0
  Coins : List ChainCoins := []
  AvatarURL : GoString := []
  ShowNameInLeaderboard : Bool := false
  ReferralCode : GoString := []
  ReferralCount : Int := 0
  SeasonActivities : List SeasonStats := []
  deriving DecidableEq

/-- Go `models.VaultsResponse`. -/
structure VaultsResponse where
  Vaults : List VaultResponse := []
  TotalVaultCount : Int := 0
  TotalBalance : Int := 0
  TotalLP : Int := 0
  TotalNFT : Int := 0
  TotalSwapVolume : Float64 := .fin 0
  deriving DecidableEq

end models

/-! ## The collaborators of the handlers -/

namespace handlers

open models

/-- A season of the configuration (`a.cfg.Seasons`); the handlers read its `ID` only. -/
structure Season where
  ID : Nat
  deriving DecidableEq

/-- The errors a handler reports with `c.Error`. -/
inductive ApiError where
  | errInvalidRequest
  | errFailedToGetVault
  | errFailedToGetCoin
  | errForbiddenAccess
  | errVaultNotFound
  | errFailedToGetAddress
  | errAddressNotMatch
  | errFailedToAddCoin
  deriving DecidableEq, Repr

/-- The persistence layer `a.s`, read-only in the handlers below: each method is the
function from its arguments to what it returns. `GetLeaderVaultsBySeason` returns both its
values, because its caller uses the vaults before it looks at the error. -/
structure Store where
  GetVault : GoString → GoString → Except GoError Vault
  GetCoins : Nat → Except GoError (List CoinDBModel)
  GetSeasonStats : Nat → Nat → Except GoError SeasonStats
  GetLeaderVaultCount : Except GoError Int
  GetLeaderVaultTotalBalance : Except GoError Int
  GetLeaderVaultTotalLP : Except GoError Int
  GetLeaderVaultTotalNFT : Except GoError Int
  GetLeaderVaultTotalVolume : Except GoError Float64
  GetLeaderVaults : Int → Int → Except GoError (List Vault)
  GetSwapLeaderVaults : Int → Int → Except GoError (List Vault)
  GetLeaderVaultCountBySeason : Nat → Except GoError Int
  GetLeaderVaultTotalBalanceBySeason : Nat → Except GoError Int
  GetLeaderVaultTotalLPBySeason : Nat → Except GoError Int
  GetLeaderVaultTotalNFTBySeason : Nat → Except GoError Int
  GetLeaderVaultTotalPointsBySeason : Nat → Except GoError Float64
  GetLeaderVaultsBySeason : Nat → Int → Int → List Vault × Option GoError

/-- A call of a method of the persistence layer, with its arguments. -/
inductive StoreCall where
  | GetVault (ecdsa eddsa : GoString)
  | GetCoins (vaultID : Nat)
  | GetSeasonStats (vaultID seasonID : Nat)
  | GetLeaderVaultCount
  | GetLeaderVaultTotalBalance
  | GetLeaderVaultTotalLP
  | GetLeaderVaultTotalNFT
  | GetLeaderVaultTotalVolume
  | GetLeaderVaults (start limit : Int)
  | GetSwapLeaderVaults (start limit : Int)
  | GetLeaderVaultCountBySeason (seasonID : Nat)
  | GetLeaderVaultTotalBalanceBySeason (seasonID : Nat)
  | GetLeaderVaultTotalLPBySeason (seasonID : Nat)
  | GetLeaderVaultTotalNFTBySeason (seasonID : Nat)
  | GetLeaderVaultTotalPointsBySeason (seasonID : Nat)
  | GetLeaderVaultsBySeason (seasonID : Nat) (start limit : Int)
  deriving DecidableEq

/-- What a handler does that an observer outside it can tell: a call of the persistence
layer, or the evaluation of a `float64` division `x / y`. -/
inductive Event where
  | store (call : StoreCall)
  | fdiv (x y : Float64)
  deriving DecidableEq

/-- A run of a handler: the events in the order they happen, and either the error reported
with `c.Error` or the body written with `c.JSON(http.StatusOK, ...)`. -/
structure Run (α : Type) where
  trace : List Event
  result : Except ApiError α

namespace Run

/-- Finish with the value `a`. -/
def ret {α : Type} (a : α) : Run α := ⟨[], .ok a⟩

/-- Report `e` and return from the handler. -/
def fail {α : Type} (e : ApiError) : Run α := ⟨[], .error e⟩

/-- Sequencing: the second part runs only when the first reported no error. -/
def andThen {α β : Type} (x : Run α) (f : α → Run β) : Run β :=
  match x.result with
  | .error e => ⟨x.trace, .error e⟩
  | .ok a => ⟨x.trace ++ (f a).trace, (f a).result⟩

instance : Monad Run where
  pure := ret
  bind := andThen

/-- The value of a parse, or the error `e` when it failed. -/
def ofOption {α : Type} (o : Option α) (e : ApiError) : Run α :=
  match o with
  | some a => ret a
  | none => fail e

/-- A call of the persistence layer that returned `r`: the call is recorded, and an error
of the layer is reported as `e`. -/
def call {α : Type} (c : StoreCall) (r : Except GoError α) (e : ApiError) : Run α :=
  match r with
  | .ok a => ⟨[.store c], .ok a⟩
  | .error _ => ⟨[.store c], .error e⟩

/-- Record events. -/
def emit (evs : List Event) : Run Unit := ⟨evs, .ok ()⟩

end Run

/-- The part of `*gin.Context` the handlers read: the query string, the path parameters and
the request headers. -/
structure Context where
  Query : String → Option GoString
  Param : String → GoString
  Header : String → GoString

/-- Go `c.DefaultQuery(key, defaultValue)`. -/
def Context.DefaultQuery (c : Context) (key : String) (defaultValue : String) : GoString :=
  match c.Query key with
  | some v => v
  | none => gostr defaultValue

end handlers

/-! ## `internal/handlers/vault_handler.go` -/

namespace handlers

open models

/-- Go `const MaxPageSize = 100`. -/
def MaxPageSize : Int := 100

/-- The total number of airdrop tokens of a season: `float64(1_250_000)`, and `1_000_000`
for season 0. -/
def totalAirdropPoints (seasonID : Nat) : Float64 :=
  if seasonID = 0 then Float64.ofNat 1000000 else Float64.ofNat 1250000

/-- The grouping of the coins of a vault by chain in `getVaultHandler`: a coin joins every
group of its chain, or opens a new group at the end. -/
def groupCoins (coins : List CoinDBModel) : List ChainCoins :=
  coins.foldl
    (fun groups coin =>
      if groups.any (fun g => g.Name == coin.Chain) then
        groups.map (fun g => if g.Name = coin.Chain then { g with Coins := g.Coins ++ [coin] } else g)
      else
        groups ++ [{ Name := coin.Chain, Address := coin.Address,
                     HexPublicKey := coin.HexPublicKey, Coins := [coin] }])
    []

/-- One iteration of the loop over `a.cfg.Seasons` in `getVaultHandler`: the entry of
`SeasonActivities` for `season`. -/
def seasonActivity (s : Store) (vault : Vault) (season : Season) : Run SeasonStats :=
  if season.ID = vault.CurrentSeasonID then
    pure { SeasonID := season.ID, Rank := vault.Rank, Points := vault.TotalPoints }
  else do
    let totalSeasonPoints ←
      Run.call (.GetLeaderVaultTotalPointsBySeason season.ID)
        (s.GetLeaderVaultTotalPointsBySeason season.ID) .errFailedToGetVault
    let totalAirdropPoints := totalAirdropPoints season.ID
    let seasonStats ←
      Run.call (.GetSeasonStats vault.ID season.ID) (s.GetSeasonStats vault.ID season.ID)
        .errFailedToGetVault
    Run.emit [.fdiv seasonStats.Points totalSeasonPoints]
    pure { SeasonID := season.ID, Rank := seasonStats.Rank,
           Points := (seasonStats.Points.div totalSeasonPoints).mul totalAirdropPoints }

/-- The loop over `a.cfg.Seasons` in `getVaultHandler`, appending to `acc`. -/
def seasonActivities (s : Store) (vault : Vault) :
    List Season → List SeasonStats → Run (List SeasonStats)
  | [], acc => pure acc
  | season :: rest, acc => do
    let entry ← seasonActivity s vault season
    seasonActivities s vault rest (acc ++ [entry])

/-- Go `func (a *Api) getVaultHandler(c *gin.Context)`, with `seasons` for `a.cfg.Seasons`. -/
def getVaultHandler (seasons : List Season) (s : Store) (c : Context) : Run VaultResponse := do
  let ecdsaPublicKey := c.Param "ecdsaPublicKey"
  let eddsaPublicKey := c.Param "eddsaPublicKey"
  let vault ←
    Run.call (.GetVault ecdsaPublicKey eddsaPublicKey) (s.GetVault ecdsaPublicKey eddsaPublicKey)
      .errFailedToGetVault
  let coins ← Run.call (.GetCoins vault.ID) (s.GetCoins vault.ID) .errFailedToGetCoin
  let vaultResp : VaultResponse :=
    { UId := vault.Uid
      Name := vault.Name
      Alias := vault.Alias
      PublicKeyECDSA := vault.ECDSA
      PublicKeyEDDSA := vault.EDDSA
      TotalPoints := vault.TotalPoints
      JoinAirdrop := vault.JoinAirdrop
      Rank := vault.Rank
      Balance := vault.Balance
      LPValue := vault.LPValue
      NFTValue := vault.NFTValue
      SwapVolume := vault.SwapVolume
      RegisteredAt := vault.CreatedAt
      Coins := groupCoins coins
      AvatarURL := vault.AvatarURL
      ShowNameInLeaderboard := vault.ShowNameInLeaderboard
      ReferralCode := vault.ReferralCode
      ReferralCount := vault.ReferralCount }
  let activities ← seasonActivities s vault seasons []
  pure { vaultResp with SeasonActivities := activities }

/-- The bound `length` of the slice `vault.Uid[:length]`: 10, or `len(vault.Uid)` when that
is less. -/
def maskLength (uid : GoString) : Nat :=
  if uid.length < 10 then uid.length else 10

/-- The name a leaderboard shows for a vault: its alias, or the slice `vault.Uid[:length]`
when the vault hides its name. The slice expression panics in Go when `length` exceeds
`len(vault.Uid)`; `List.take` is the slice for a bound within the length. -/
def vaultName (vault : Vault) : GoString :=
  if !vault.ShowNameInLeaderboard then vault.Uid.take (maskLength vault.Uid)
  else vault.Alias

/-- The body of the loop over the vaults of a closed season in `getVaultsByRankHandler`, at
index `i`: the rank by position and the share of the airdrop as `Balance`; the events are
the float divisions it evaluates. -/
def closedSeasonVault (seasonId : Nat) (start : Int) (totalSeasonPoints : Float64)
    (i : Nat) (vault : Vault) : Vault × List Event :=
  let rank := wrapInt64 (start + wrapInt64 ((i : Int) + 1))
  let totalAirdropPoints := totalAirdropPoints seasonId
  if Float64.lt (.fin 0) totalSeasonPoints then
    ({ vault with
        Rank := rank
        Balance := (totalAirdropPoints.mul (vault.TotalPoints.div totalSeasonPoints)).toInt64 },
     [.fdiv vault.TotalPoints totalSeasonPoints])
  else ({ vault with Rank := rank, Balance := 0 }, [])

/-- The loop `for i := range vaults` of the closed-season branch, from index `i` on. -/
def closedSeasonLoop (seasonId : Nat) (start : Int) (totalSeasonPoints : Float64) :
    Nat → List Vault → List Vault × List Event
  | _, [] => ([], [])
  | i, vault :: rest =>
    let head := closedSeasonVault seasonId start totalSeasonPoints i vault
    let tail := closedSeasonLoop seasonId start totalSeasonPoints (i + 1) rest
    (head.1 :: tail.1, head.2 ++ tail.2)

/-- The entry of the response that `getVaultsByRankHandler` builds for a vault. -/
def rankResponse (vault : Vault) : VaultResponse :=
  { Name := vaultName vault
    Alias := vaultName vault
    TotalPoints := vault.TotalPoints
    Rank := vault.Rank
    Balance := vault.Balance
    LPValue := vault.LPValue
    NFTValue := vault.NFTValue
    RegisteredAt := vault.CreatedAt
    AvatarURL := vault.AvatarURL }

/-- The entry of the response that `getVaultsByVolumeHandler` builds for a vault. -/
def volumeResponse (vault : Vault) : VaultResponse :=
  { Name := vaultName vault
    Alias := vaultName vault
    TotalPoints := vault.TotalPoints
    Rank := vault.Rank
    Balance := vault.Balance
    LPValue := vault.LPValue
    NFTValue := vault.NFTValue
    SwapVolume := vault.SwapVolume
    RegisteredAt := vault.CreatedAt
    AvatarURL := vault.AvatarURL }

/-- Go `func (a *Api) getVaultsByRankHandler(c *gin.Context)`, with `currentSeasonID` for
`a.cfg.GetCurrentSeason().ID`. -/
def getVaultsByRankHandler (currentSeasonID : Nat) (s : Store) (c : Context) :
    Run VaultsResponse := do
  let fromStr := c.DefaultQuery "from" "0"
  let limitStr := c.DefaultQuery "limit" "10"
  let seasonIdStr := c.DefaultQuery "season" "0"
  let start ← Run.ofOption (strconv.ParseInt fromStr) .errInvalidRequest
  let parsedLimit ← Run.ofOption (strconv.Atoi limitStr) .errInvalidRequest
  let limit := if parsedLimit > MaxPageSize then MaxPageSize else parsedLimit
  let seasonId ← Run.ofOption (strconv.ParseUint seasonIdStr) .errInvalidRequest
  if seasonId = currentSeasonID then do
    let count ← Run.call .GetLeaderVaultCount s.GetLeaderVaultCount .errFailedToGetVault
    let balance ←
      Run.call .GetLeaderVaultTotalBalance s.GetLeaderVaultTotalBalance .errFailedToGetVault
    let lp ← Run.call .GetLeaderVaultTotalLP s.GetLeaderVaultTotalLP .errFailedToGetVault
    let nft ← Run.call .GetLeaderVaultTotalNFT s.GetLeaderVaultTotalNFT .errFailedToGetVault
    let vaults ←
      Run.call (.GetLeaderVaults start limit) (s.GetLeaderVaults start limit) .errFailedToGetVault
    pure { Vaults := vaults.map rankResponse, TotalVaultCount := count, TotalBalance := balance,
           TotalLP := lp, TotalNFT := nft }
  else do
    let count ←
      Run.call (.GetLeaderVaultCountBySeason seasonId) (s.GetLeaderVaultCountBySeason seasonId)
        .errFailedToGetVault
    let balance ←
      Run.call (.GetLeaderVaultTotalBalanceBySeason seasonId)
        (s.GetLeaderVaultTotalBalanceBySeason seasonId) .errFailedToGetVault
    let lp ←
      Run.call (.GetLeaderVaultTotalLPBySeason seasonId) (s.GetLeaderVaultTotalLPBySeason seasonId)
        .errFailedToGetVault
    let nft ←
      Run.call (.GetLeaderVaultTotalNFTBySeason seasonId)
        (s.GetLeaderVaultTotalNFTBySeason seasonId) .errFailedToGetVault
    let totalSeasonPoints ←
      Run.call (.GetLeaderVaultTotalPointsBySeason seasonId)
        (s.GetLeaderVaultTotalPointsBySeason seasonId) .errFailedToGetVault
    let fetched := s.GetLeaderVaultsBySeason seasonId start limit
    Run.emit [.store (.GetLeaderVaultsBySeason seasonId start limit)]
    let looped := closedSeasonLoop seasonId start totalSeasonPoints 0 fetched.1
    Run.emit looped.2
    match fetched.2 with
    | some _ => Run.fail .errFailedToGetVault
    | none =>
      pure { Vaults := looped.1.map rankResponse, TotalVaultCount := count,
             TotalBalance := balance, TotalLP := lp, TotalNFT := nft }

/-- The loop `for i := range vaults { vaults[i].Rank = from + int64(i+1) }` of
`getVaultsByVolumeHandler`, from index `i` on. -/
def volumeRankLoop (start : Int) : Nat → List Vault → List Vault
  | _, [] => []
  | i, vault :: rest =>
    { vault with Rank := wrapInt64 (start + wrapInt64 ((i : Int) + 1)) }
      :: volumeRankLoop start (i + 1) rest

/-- Go `func (a *Api) getVaultsByVolumeHandler(c *gin.Context)`. -/
def getVaultsByVolumeHandler (s : Store) (c : Context) : Run VaultsResponse := do
  let fromStr := c.DefaultQuery "from" "0"
  let limitStr := c.DefaultQuery "limit" "10"
  let start ← Run.ofOption (strconv.ParseInt fromStr) .errInvalidRequest
  let parsedLimit ← Run.ofOption (strconv.Atoi limitStr) .errInvalidRequest
  let limit := if parsedLimit > MaxPageSize then MaxPageSize else parsedLimit
  let count ← Run.call .GetLeaderVaultCount s.GetLeaderVaultCount .errFailedToGetVault
  let volume ←
    Run.call .GetLeaderVaultTotalVolume s.GetLeaderVaultTotalVolume .errFailedToGetVault
  let vaults ←
    Run.call (.GetSwapLeaderVaults start limit) (s.GetSwapLeaderVaults start limit)
      .errFailedToGetVault
  pure { Vaults := (volumeRankLoop start 0 vaults).map volumeResponse, TotalVaultCount := count,
         TotalSwapVolume := volume }

/-- The `(from, limit)` that a call of the persistence layer fetching a page of a
leaderboard was handed; `none` for every other event. -/
def Event.pageArgs : Event → Option (Int × Int)
  | .store (.GetLeaderVaults start limit) => some (start, limit)
  | .store (.GetSwapLeaderVaults start limit) => some (start, limit)
  | .store (.GetLeaderVaultsBySeason _ start limit) => some (start, limit)
  | _ => none

/-- Whether the event is the evaluation of a `float64` division. -/
def Event.isDiv : Event → Bool
  | .fdiv _ _ => true
  | _ => false

end handlers

/-! ## Sample data

Concrete vaults, an in-memory persistence layer and requests, at which the handlers are
evaluated. -/

namespace sample

open models handlers

/-- A vault with the given database id, keys, `Uid` and points, registered in season
`season`; the alias is shown on the leaderboard. -/
def vault (id : Nat) (key uid : String) (points : Float64) (season : Nat) : Vault :=
  { ID := id, Name := gostr key, Alias := gostr key, ECDSA := gostr key, EDDSA := gostr key,
    Uid := gostr uid, HexChainCode := [], TotalPoints := points, JoinAirdrop := true,
    Rank := 0, Balance := 0, LPValue := 0, NFTValue := 0, SwapVolume := .fin 0, CreatedAt := 0,
    AvatarURL := [], ShowNameInLeaderboard := true, ReferralCode := [], ReferralCount := 0,
    CurrentSeasonID := season }

/-- The rows `start .. start + limit` of an ordered table (SQL `OFFSET start LIMIT limit`). -/
def page {α : Type} (rows : List α) (start limit : Int) : List α :=
  (rows.drop start.toNat).take limit.toNat

/-- An in-memory persistence layer: `current` is the leaderboard of the current season,
`closed seasonID` the leaderboard of a closed season with its points and ranks, and
`total seasonID` the total of the points of that season. No call fails, except the lookup of
a vault or of season statistics that are not there. -/
def store (current : List Vault) (closed : Nat → List Vault) (total : Nat → Float64) : Store :=
  { GetVault := fun ecdsa eddsa =>
      match current.find? (fun v => v.ECDSA == ecdsa && v.EDDSA == eddsa) with
      | some v => .ok v
      | none => .error "record not found"
    GetCoins := fun _ => .ok []
    GetSeasonStats := fun vaultID seasonID =>
      match (closed seasonID).find? (fun v => v.ID == vaultID) with
      | some v => .ok { SeasonID := seasonID, Rank := v.Rank, Points := v.TotalPoints }
      | none => .error "record not found"
    GetLeaderVaultCount := .ok current.length
    GetLeaderVaultTotalBalance := .ok (current.map (fun v => v.Balance)).sum
    GetLeaderVaultTotalLP := .ok (current.map (fun v => v.LPValue)).sum
    GetLeaderVaultTotalNFT := .ok (current.map (fun v => v.NFTValue)).sum
    GetLeaderVaultTotalVolume := .ok (.fin 0)
    GetLeaderVaults := fun start limit => .ok (page current start limit)
    GetSwapLeaderVaults := fun start limit => .ok (page current start limit)
    GetLeaderVaultCountBySeason := fun seasonID => .ok (closed seasonID).length
    GetLeaderVaultTotalBalanceBySeason := fun seasonID =>
      .ok ((closed seasonID).map (fun v => v.Balance)).sum
    GetLeaderVaultTotalLPBySeason := fun seasonID =>
      .ok ((closed seasonID).map (fun v => v.LPValue)).sum
    GetLeaderVaultTotalNFTBySeason := fun seasonID =>
      .ok ((closed seasonID).map (fun v => v.NFTValue)).sum
    GetLeaderVaultTotalPointsBySeason := fun seasonID => .ok (total seasonID)
    GetLeaderVaultsBySeason := fun seasonID start limit => (page (closed seasonID) start limit, none) }

/-- A request with the given query string and path parameters, and no headers. -/
def request (query params : List (String × String)) : Context :=
  { Query := fun key => (query.lookup key).map gostr
    Param := fun key => gostr ((params.lookup key).getD "")
    Header := fun _ => [] }

/-- A closed season of `n` vaults with one point each, in rank order. -/
def season (n : Nat) : List Vault :=
  (List.range n).map (fun i => vault (i + 1) "v" "uid" (.fin 1) 1)

end sample

namespace sample

open models handlers

/-- Season 0 is closed with two vaults of 300 and 700 points, total 1000; season 1 is the
current one. -/
def twoVaults : Store :=
  store [vault 1 "a" "uid-a" (.fin 0) 1, vault 2 "b" "uid-b" (.fin 0) 1]
    (fun _ => [vault 1 "a" "uid-a" (.fin 300) 0, vault 2 "b" "uid-b" (.fin 700) 0])
    (fun _ => .fin 1000)

/-- Season 0 is closed with one vault, and neither it nor the season earned any points;
season 1 is the current one. -/
def noPoints : Store :=
  store [vault 1 "a" "uid-a" (.fin 0) 1] (fun _ => [vault 1 "a" "uid-a" (.fin 0) 0])
    (fun _ => .fin 0)

/-- Season 0 is closed with three vaults of one point each, total 3; season 1 is the
current one. -/
def threeVaults : Store :=
  store [] (fun _ => season 3) (fun _ => .fin 3)

/-- The request for the detail of the vault with both keys `key`. -/
def detail (key : String) : Context :=
  request [] [("ecdsaPublicKey", key), ("eddsaPublicKey", key)]

end sample

/-! ## `internal/handlers/coin_handler.go` -/

namespace models

/-- Go `models.CoinBase`: a coin as a request sends it; the fields are the ones `addCoin`
reads. -/
structure CoinBase where
  Chain : common.Chain
  Address : GoString
  HexPublicKey : GoString
  deriving DecidableEq

end models

deriving instance DecidableEq for Except

namespace handlers

open models

/-- A run of `addCoin` over a store in state `σ`: the state of the store after the handler,
the coin that was handed to `a.s.AddCoin` if the method was called, and either the error
reported with `c.Error` or the `coin_id` written with `c.JSON(http.StatusCreated, ...)`. -/
structure CoinRun (σ : Type) where
  store : σ
  added : Option CoinDBModel
  result : Except ApiError Nat

/-- Go `func (a *Api) addCoin(c *gin.Context)`. `bound` is what `c.ShouldBindJSON(&coin)`
returns for the body of the request, `GetAddress` is the method `vault.GetAddress(chain)` of
`models.Vault`, and `AddCoin` is `a.s.AddCoin(&coinDB)`, from the state of the store and the
coin to the state after the call and the error or the `ID` given to the stored coin; none of
the three is among the sources. -/
def addCoin {σ : Type} (GetAddress : Vault → common.Chain → Except GoError GoString)
    (AddCoin : σ → CoinDBModel → σ × Except GoError Nat) (s : Store) (c : Context)
    (bound : Except GoError CoinBase) (st : σ) : CoinRun σ :=
  match bound with
  | .error _ => { store := st, added := none, result := .error .errInvalidRequest }
  | .ok coin =>
    let ecdsaPublicKey := c.Param "ecdsaPublicKey"
    let eddsaPublicKey := c.Param "eddsaPublicKey"
    let hexChainCode := c.Header "x-hex-chain-code"
    if hexChainCode = [] then
      { store := st, added := none, result := .error .errForbiddenAccess }
    else
      match s.GetVault ecdsaPublicKey eddsaPublicKey with
      | .error _ => { store := st, added := none, result := .error .errVaultNotFound }
      | .ok vault =>
        if vault.HexChainCode ≠ hexChainCode then
          { store := st, added := none, result := .error .errForbiddenAccess }
        else
          match GetAddress vault coin.Chain with
          | .error _ => { store := st, added := none, result := .error .errFailedToGetAddress }
          | .ok addr =>
            if coin.Address ≠ addr then
              { store := st, added := none, result := .error .errAddressNotMatch }
            else
              let coinDB : CoinDBModel :=
                { ID := 0, VaultID := vault.ID, Chain := coin.Chain, Address := coin.Address,
                  HexPublicKey := coin.HexPublicKey }
              match AddCoin st coinDB with
              | (st', .error _) =>
                { store := st', added := some coinDB, result := .error .errFailedToAddCoin }
              | (st', .ok id) => { store := st', added := some coinDB, result := .ok id }

end handlers

namespace sample

open models handlers

/-- A vault with the hex chain code `"c0de"`, database id 7 and both keys `"a"`. -/
def coinVault : Vault :=
  { vault 7 "a" "uid-a" (.fin 0) 0 with HexChainCode := gostr "c0de" }

/-- A store that holds `coinVault` and no other vault. -/
def coinVaultStore : Store :=
  store [coinVault] (fun _ => []) (fun _ => .fin 0)

/-- An address derivation: the key of the vault followed by the name of the chain, and an
error for a value that is no named chain. -/
def deriveAddress (v : Vault) (chain : common.Chain) : Except GoError GoString :=
  if chain ∈ common.namedChains then .ok (v.ECDSA ++ gostr ":" ++ chain.String)
  else .error "unsupported chain"

/-- A table of coins: the new coin is appended and gets the next `ID`. -/
def appendCoin (coins : List CoinDBModel) (coin : CoinDBModel) :
    List CoinDBModel × Except GoError Nat :=
  (coins ++ [{ coin with ID := coins.length + 1 }], .ok (coins.length + 1))

/-- The request of the owner of the vault with both keys `key`, with the header
`x-hex-chain-code` set to `code`. -/
def coinRequest (key code : String) : Context :=
  { Query := fun _ => none
    Param := fun name =>
      if name = "ecdsaPublicKey" ∨ name = "eddsaPublicKey" then gostr key else []
    Header := fun name => if name = "x-hex-chain-code" then gostr code else [] }

end sample

/-! ## Properties -/

namespace common

theorem mem_namedChains_iff (c : Chain) : c ∈ namedChains ↔ 1 ≤ c.val ∧ c.val ≤ 32 := by
  constructor
  · intro h
    simp only [namedChains, List.mem_cons, List.mem_singleton, List.not_mem_nil, or_false] at h
    rcases h with h | h | h | h | h | h | h | h | h | h | h | h | h | h | h | h | h | h | h | h |
      h | h | h | h | h | h | h | h | h | h | h | h <;> subst h <;> decide
  · rcases c with ⟨n⟩
    rintro ⟨h1, h2⟩
    simp only at h1 h2
    have : n = 1 ∨ n = 2 ∨ n = 3 ∨ n = 4 ∨ n = 5 ∨ n = 6 ∨ n = 7 ∨ n = 8 ∨ n = 9 ∨ n = 10 ∨
        n = 11 ∨ n = 12 ∨ n = 13 ∨ n = 14 ∨ n = 15 ∨ n = 16 ∨ n = 17 ∨ n = 18 ∨ n = 19 ∨
        n = 20 ∨ n = 21 ∨ n = 22 ∨ n = 23 ∨ n = 24 ∨ n = 25 ∨ n = 26 ∨ n = 27 ∨ n = 28 ∨
        n = 29 ∨ n = 30 ∨ n = 31 ∨ n = 32 := by omega
    rcases this with h | h | h | h | h | h | h | h | h | h | h | h | h | h | h | h | h | h | h |
      h | h | h | h | h | h | h | h | h | h | h | h | h <;> subst h <;> decide

theorem chainToString_keys : chainToString.map Prod.fst = namedChains := by decide

theorem chainToString_values_nodup : (chainToString.map Prod.snd).Nodup := by decide

theorem chainToString_keys_nodup : (chainToString.map Prod.fst).Nodup := by decide

theorem String_mem_of_named : ∀ c ∈ namedChains, (c, c.String) ∈ chainToString := by decide

theorem String_ne_unknown_of_named : ∀ c ∈ namedChains, c.String ≠ gostr "UNKNOWN" := by decide

theorem lookup_none_of_not_named (c : Chain) (h : c ∉ namedChains) :
    chainToString.lookup c = none := by
  rw [List.lookup_eq_none_iff]
  intro p hp
  have hk : p.1 ∈ namedChains := by
    rw [← chainToString_keys]
    exact List.mem_map_of_mem Prod.fst hp
  simp only [bne_iff_ne, ne_eq]
  intro hcp
  exact h (hcp ▸ hk)

theorem rangeFind_perm (order : List (Chain × GoString)) (h : order.Perm chainToString)
    (c : Chain) (hc : c ∈ namedChains) : rangeFind order c.String = some c := by
  have hmem : (c, c.String) ∈ order := h.mem_iff.mpr (String_mem_of_named c hc)
  unfold rangeFind
  cases hf : order.find? (fun kv => kv.2 == c.String) with
  | none =>
    rw [List.find?_eq_none] at hf
    have := hf _ hmem
    simp at this
  | some kv =>
    have hkv : kv ∈ order := List.mem_of_find?_eq_some hf
    have hp := List.find?_some hf
    simp only [beq_iff_eq] at hp
    have hkv2 : kv ∈ chainToString := h.mem_iff.mp hkv
    have := List.inj_on_of_nodup_map chainToString_values_nodup hkv2
      (String_mem_of_named c hc) hp
    simp [this]

theorem quotedJSON_roundtrip (s : GoString) :
    quotedJSON.Unmarshal (quotedJSON.Marshal s).1 = .ok s := by
  simp [quotedJSON]

/-- C9: for every named chain `c`, whatever the receiver `prev` held and whatever order the
map is iterated in, `UnmarshalJSON` of `MarshalJSON(c)` and `Scan` of the bytes of `Value(c)`
set the receiver to `c` and return no error, given that `encoding/json` encodes a string
without error and decodes its own encoding of a display name back to that name. The display
names of `chainToString` are pairwise distinct. -/
theorem C9_chain_encode_decode_roundtrip (json : JSONString)
    (hMarshal : ∀ s, (json.Marshal s).2 = none)
    (hjson : ∀ s ∈ chainToString.map Prod.snd, json.Unmarshal (json.Marshal s).1 = .ok s)
    (order₁ order₂ : List (Chain × GoString))
    (h₁ : order₁.Perm chainToString) (h₂ : order₂.Perm chainToString)
    (c : Chain) (hc : c ∈ namedChains) (prev : Chain) :
    (c.MarshalJSON json).2 = none
      ∧ Chain.UnmarshalJSON json order₁ prev (c.MarshalJSON json).1 = (c, none)
      ∧ c.Value.2 = none
      ∧ Chain.Scan order₂ prev (.bytes c.Value.1) = (c, none)
      ∧ (chainToString.map Prod.snd).Nodup := by
  have hs : c.String ∈ chainToString.map Prod.snd :=
    List.mem_map_of_mem Prod.snd (String_mem_of_named c hc)
  refine ⟨hMarshal _, ?_, rfl, ?_, chainToString_values_nodup⟩
  · simp only [Chain.UnmarshalJSON, Chain.MarshalJSON, hjson _ hs, rangeFind_perm order₁ h₁ c hc]
  · simp only [Chain.Scan, Chain.Value, rangeFind_perm order₂ h₂ c hc]

/-- Witness of C9 at `Bitcoin`, a receiver holding `Zcash`, the quoting codec, and the map
iterated forwards for `UnmarshalJSON` and backwards for `Scan`. -/
theorem C9_chain_encode_decode_roundtrip_witness :
    Chain.UnmarshalJSON quotedJSON chainToString Zcash (Bitcoin.MarshalJSON quotedJSON).1
        = (Bitcoin, none)
      ∧ Chain.Scan chainToString.reverse Zcash (.bytes Bitcoin.Value.1) = (Bitcoin, none) :=
  have h := C9_chain_encode_decode_roundtrip quotedJSON (fun _ => rfl)
    (fun s _ => quotedJSON_roundtrip s) chainToString chainToString.reverse
    (List.Perm.refl _) (List.reverse_perm _) Bitcoin (by decide) Zcash
  ⟨h.2.1, h.2.2.2.1⟩

/-- C10: a `Chain` value outside the 32 named constants (`Undefined`, a negative value, a
value above `Zcash`) has `String` equal to the sentinel `"UNKNOWN"`, and `Value` and
`MarshalJSON` return no error for it (`json.Marshal` does not fail on a string); a named
chain has `String` equal to its entry of `chainToString`, which is never `"UNKNOWN"`. -/
theorem C10_unknown_chain_sentinel (json : JSONString)
    (hMarshal : ∀ s, (json.Marshal s).2 = none) (c : Chain) :
    (c ∉ namedChains ↔ c.val ≤ 0 ∨ 32 < c.val)
      ∧ (c ∉ namedChains →
          c.String = gostr "UNKNOWN"
            ∧ c.Value = (gostr "UNKNOWN", none)
            ∧ c.MarshalJSON json = ((json.Marshal (gostr "UNKNOWN")).1, none))
      ∧ (c ∈ namedChains →
          chainToString.lookup c = some c.String ∧ c.String ≠ gostr "UNKNOWN") := by
  refine ⟨?_, ?_, ?_⟩
  · rw [mem_namedChains_iff]
    omega
  · intro h
    have hS : c.String = gostr "UNKNOWN" := by
      simp only [Chain.String, lookup_none_of_not_named c h]
    refine ⟨hS, by simp only [Chain.Value, hS], ?_⟩
    simp only [Chain.MarshalJSON, hS]
    exact Prod.ext rfl (hMarshal _)
  · intro h
    refine ⟨?_, String_ne_unknown_of_named c h⟩
    revert c
    decide

/-- Witness of C10 at the quoting codec and the unnamed value 33, just above `Zcash`. -/
theorem C10_unknown_chain_sentinel_witness :
    (⟨33⟩ : Chain).String = gostr "UNKNOWN"
      ∧ (⟨33⟩ : Chain).MarshalJSON quotedJSON = ((quotedJSON.Marshal (gostr "UNKNOWN")).1, none) :=
  have h := (C10_unknown_chain_sentinel quotedJSON (fun _ => rfl) ⟨33⟩).2.1 (by decide)
  ⟨h.1, h.2.2⟩

end common

namespace handlers

open models

/-! ### Runs -/

theorem Run.bind_eq {α β : Type} (x : Run α) (f : α → Run β) : x >>= f = x.andThen f := rfl

theorem Run.pure_eq {α : Type} (a : α) : (pure a : Run α) = Run.ret a := rfl

theorem Run.mem_trace_andThen {α β : Type} (x : Run α) (f : α → Run β) (ev : Event) :
    ev ∈ (x.andThen f).trace ↔ ev ∈ x.trace ∨ ∃ a, x.result = .ok a ∧ ev ∈ (f a).trace := by
  unfold Run.andThen
  split
  · next e h => simp [h]
  · next a h => simp [h]

theorem Run.andThen_ok {α β : Type} (x : Run α) (f : α → Run β) (a : α)
    (h : x.result = .ok a) :
    x.andThen f = ⟨x.trace ++ (f a).trace, (f a).result⟩ := by
  unfold Run.andThen
  rw [h]

theorem Run.andThen_error {α β : Type} (x : Run α) (f : α → Run β) (e : ApiError)
    (h : x.result = .error e) :
    x.andThen f = ⟨x.trace, .error e⟩ := by
  unfold Run.andThen
  rw [h]

theorem Run.andThen_mk_ok {α β : Type} (tr : List Event) (a : α) (f : α → Run β) :
    Run.andThen ⟨tr, .ok a⟩ f = ⟨tr ++ (f a).trace, (f a).result⟩ := rfl

theorem Run.andThen_mk_error {α β : Type} (tr : List Event) (e : ApiError) (f : α → Run β) :
    Run.andThen ⟨tr, .error e⟩ f = ⟨tr, .error e⟩ := rfl

theorem Run.call_ok {α : Type} (c : StoreCall) (a : α) (e : ApiError) :
    Run.call c (.ok a) e = ⟨[.store c], .ok a⟩ := rfl

theorem Run.trace_call {α : Type} (c : StoreCall) (r : Except GoError α) (e : ApiError) :
    (Run.call c r e).trace = [.store c] := by
  unfold Run.call
  split <;> rfl

theorem Run.result_call_ok {α : Type} (c : StoreCall) (r : Except GoError α) (e : ApiError)
    (a : α) : (Run.call c r e).result = .ok a ↔ r = .ok a := by
  unfold Run.call
  split <;> simp

theorem Run.trace_ofOption {α : Type} (o : Option α) (e : ApiError) :
    (Run.ofOption o e).trace = [] := by
  unfold Run.ofOption
  split <;> rfl

theorem Run.result_ofOption_ok {α : Type} (o : Option α) (e : ApiError) (a : α) :
    (Run.ofOption o e).result = .ok a ↔ o = some a := by
  unfold Run.ofOption
  split <;> simp [Run.ret, Run.fail]

theorem Run.ofOption_some {α : Type} (a : α) (e : ApiError) :
    Run.ofOption (some a) e = ⟨[], .ok a⟩ := rfl

theorem closedSeasonLoop_events (seasonId : Nat) (start : Int) (total : Float64)
    (vaults : List Vault) (i : Nat) (ev : Event)
    (h : ev ∈ (closedSeasonLoop seasonId start total i vaults).2) :
    ∃ v ∈ vaults, ev = .fdiv v.TotalPoints total ∧ Float64.lt (.fin 0) total = true := by
  induction vaults generalizing i with
  | nil => simp [closedSeasonLoop] at h
  | cons v rest ih =>
    simp only [closedSeasonLoop, List.mem_append] at h
    rcases h with h | h
    · unfold closedSeasonVault at h
      split at h
      · next hlt =>
        simp only [List.mem_singleton] at h
        exact ⟨v, List.mem_cons_self _ _, h, hlt⟩
      · simp at h
    · obtain ⟨w, hw, hev⟩ := ih (i + 1) h
      exact ⟨w, List.mem_cons_of_mem _ hw, hev⟩

theorem closedSeasonLoop_length (seasonId : Nat) (start : Int) (total : Float64)
    (vaults : List Vault) (i : Nat) :
    (closedSeasonLoop seasonId start total i vaults).1.length = vaults.length := by
  induction vaults generalizing i with
  | nil => rfl
  | cons v rest ih => simp [closedSeasonLoop, ih]

theorem closedSeasonLoop_getElem? (seasonId : Nat) (start : Int) (total : Float64)
    (vaults : List Vault) (i j : Nat) :
    (closedSeasonLoop seasonId start total i vaults).1[j]?
      = vaults[j]?.map (fun v => (closedSeasonVault seasonId start total (i + j) v).1) := by
  induction vaults generalizing i j with
  | nil => simp [closedSeasonLoop]
  | cons v rest ih =>
    cases j with
    | zero => simp [closedSeasonLoop]
    | succ j =>
      have hij : i + 1 + j = i + (j + 1) := by omega
      simp only [closedSeasonLoop, List.getElem?_cons_succ, ih, hij]

theorem volumeRankLoop_getElem? (start : Int) (vaults : List Vault) (i j : Nat) :
    (volumeRankLoop start i vaults)[j]?
      = vaults[j]?.map
          (fun v => { v with Rank := wrapInt64 (start + wrapInt64 (((i + j : Nat) : Int) + 1)) }) := by
  induction vaults generalizing i j with
  | nil => simp [volumeRankLoop]
  | cons v rest ih =>
    cases j with
    | zero => simp [volumeRankLoop]
    | succ j =>
      have hij : i + 1 + j = i + (j + 1) := by omega
      simp only [volumeRankLoop, List.getElem?_cons_succ, ih, hij]

/-- The run of `getVaultsByRankHandler` for a closed season when the parses and the calls
of the persistence layer succeed. -/
theorem getVaultsByRankHandler_closed (cur : Nat) (s : Store) (c : Context)
    (start limit : Int) (seasonId : Nat) (count balance lp nft : Int) (total : Float64)
    (fetched : List Vault × Option GoError)
    (hfrom : strconv.ParseInt (c.DefaultQuery "from" "0") = some start)
    (hlimit : strconv.Atoi (c.DefaultQuery "limit" "10") = some limit)
    (hseason : strconv.ParseUint (c.DefaultQuery "season" "0") = some seasonId)
    (hclosed : seasonId ≠ cur)
    (hcount : s.GetLeaderVaultCountBySeason seasonId = .ok count)
    (hbalance : s.GetLeaderVaultTotalBalanceBySeason seasonId = .ok balance)
    (hlp : s.GetLeaderVaultTotalLPBySeason seasonId = .ok lp)
    (hnft : s.GetLeaderVaultTotalNFTBySeason seasonId = .ok nft)
    (htotal : s.GetLeaderVaultTotalPointsBySeason seasonId = .ok total)
    (hfetched : s.GetLeaderVaultsBySeason seasonId start (min limit 100) = fetched) :
    getVaultsByRankHandler cur s c =
      { trace :=
          [.store (.GetLeaderVaultCountBySeason seasonId),
           .store (.GetLeaderVaultTotalBalanceBySeason seasonId),
           .store (.GetLeaderVaultTotalLPBySeason seasonId),
           .store (.GetLeaderVaultTotalNFTBySeason seasonId),
           .store (.GetLeaderVaultTotalPointsBySeason seasonId),
           .store (.GetLeaderVaultsBySeason seasonId start (min limit 100))]
            ++ (closedSeasonLoop seasonId start total 0 fetched.1).2
        result :=
          match fetched.2 with
          | some _ => .error .errFailedToGetVault
          | none =>
            .ok { Vaults := (closedSeasonLoop seasonId start total 0 fetched.1).1.map rankResponse
                  TotalVaultCount := count, TotalBalance := balance, TotalLP := lp,
                  TotalNFT := nft } } := by
  have hmin : (if limit > MaxPageSize then MaxPageSize else limit) = min limit 100 := by
    unfold MaxPageSize
    split <;> omega
  simp only [getVaultsByRankHandler, Run.bind_eq, Run.pure_eq, hfrom, hlimit, hseason,
    Run.ofOption_some, hmin, if_neg hclosed, hcount, hbalance, hlp, hnft, htotal, hfetched,
    Run.call_ok, Run.emit, Run.andThen_mk_ok]
  cases fetched.2 <;> simp [Run.fail, Run.ret]

theorem Run.result_andThen_ok {α β : Type} (x : Run α) (f : α → Run β) (b : β) :
    (x.andThen f).result = .ok b ↔ ∃ a, x.result = .ok a ∧ (f a).result = .ok b := by
  unfold Run.andThen
  split
  · next e h => simp [h]
  · next a h => simp [h]

theorem clamp_eq_min (limit : Int) :
    (if limit > MaxPageSize then MaxPageSize else limit) = min limit 100 := by
  unfold MaxPageSize
  split <;> omega

/-- The run of `getVaultsByRankHandler` for the current season when the parses and the
calls of the persistence layer succeed. -/
theorem getVaultsByRankHandler_current (cur : Nat) (s : Store) (c : Context)
    (start limit : Int) (count balance lp nft : Int) (vaults : List Vault)
    (hfrom : strconv.ParseInt (c.DefaultQuery "from" "0") = some start)
    (hlimit : strconv.Atoi (c.DefaultQuery "limit" "10") = some limit)
    (hseason : strconv.ParseUint (c.DefaultQuery "season" "0") = some cur)
    (hcount : s.GetLeaderVaultCount = .ok count)
    (hbalance : s.GetLeaderVaultTotalBalance = .ok balance)
    (hlp : s.GetLeaderVaultTotalLP = .ok lp)
    (hnft : s.GetLeaderVaultTotalNFT = .ok nft)
    (hvaults : s.GetLeaderVaults start (min limit 100) = .ok vaults) :
    getVaultsByRankHandler cur s c =
      { trace :=
          [.store .GetLeaderVaultCount, .store .GetLeaderVaultTotalBalance,
           .store .GetLeaderVaultTotalLP, .store .GetLeaderVaultTotalNFT,
           .store (.GetLeaderVaults start (min limit 100))]
        result :=
          .ok { Vaults := vaults.map rankResponse, TotalVaultCount := count,
                TotalBalance := balance, TotalLP := lp, TotalNFT := nft } } := by
  simp [getVaultsByRankHandler, Run.bind_eq, Run.pure_eq, hfrom, hlimit, hseason,
    Run.ofOption_some, clamp_eq_min, hcount, hbalance, hlp, hnft, hvaults,
    Run.call_ok, Run.andThen_mk_ok, Run.ret]

/-- The run of `getVaultsByVolumeHandler` when the parses and the calls of the persistence
layer succeed. -/
theorem getVaultsByVolumeHandler_run (s : Store) (c : Context)
    (start limit : Int) (count : Int) (volume : Float64) (vaults : List Vault)
    (hfrom : strconv.ParseInt (c.DefaultQuery "from" "0") = some start)
    (hlimit : strconv.Atoi (c.DefaultQuery "limit" "10") = some limit)
    (hcount : s.GetLeaderVaultCount = .ok count)
    (hvolume : s.GetLeaderVaultTotalVolume = .ok volume)
    (hvaults : s.GetSwapLeaderVaults start (min limit 100) = .ok vaults) :
    getVaultsByVolumeHandler s c =
      { trace :=
          [.store .GetLeaderVaultCount, .store .GetLeaderVaultTotalVolume,
           .store (.GetSwapLeaderVaults start (min limit 100))]
        result :=
          .ok { Vaults := (volumeRankLoop start 0 vaults).map volumeResponse,
                TotalVaultCount := count, TotalSwapVolume := volume } } := by
  simp [getVaultsByVolumeHandler, Run.bind_eq, Run.pure_eq, hfrom, hlimit,
    Run.ofOption_some, clamp_eq_min, hcount, hvolume, hvaults,
    Run.call_ok, Run.andThen_mk_ok, Run.ret]

theorem Run.forall_trace_andThen {α β : Type} (P : Event → Prop) (x : Run α) (f : α → Run β)
    (hx : ∀ ev ∈ x.trace, P ev) (hf : ∀ a, x.result = .ok a → ∀ ev ∈ (f a).trace, P ev) :
    ∀ ev ∈ (x.andThen f).trace, P ev := by
  intro ev hev
  rcases (Run.mem_trace_andThen x f ev).mp hev with h | ⟨a, ha, h⟩
  · exact hx ev h
  · exact hf a ha ev h

theorem Run.forall_trace_call {α : Type} (P : Event → Prop) (c : StoreCall)
    (r : Except GoError α) (e : ApiError) (h : P (.store c)) :
    ∀ ev ∈ (Run.call c r e).trace, P ev := by
  intro ev hev
  rw [Run.trace_call, List.mem_singleton] at hev
  exact hev ▸ h

theorem Run.forall_trace_ofOption {α : Type} (P : Event → Prop) (o : Option α) (e : ApiError) :
    ∀ ev ∈ (Run.ofOption o e).trace, P ev := by
  intro ev hev
  rw [Run.trace_ofOption] at hev
  cases hev

theorem closedSeasonLoop_events_isDiv (seasonId : Nat) (start : Int) (total : Float64)
    (vaults : List Vault) (i : Nat) :
    ∀ ev ∈ (closedSeasonLoop seasonId start total i vaults).2, ev.isDiv = true := by
  intro ev hev
  obtain ⟨v, -, rfl, -⟩ := closedSeasonLoop_events _ _ _ _ _ _ hev
  rfl

/-- Every call of `getVaultsByRankHandler` that fetches a page receives the parsed `from`
and the parsed `limit` cut down to 100. -/
theorem getVaultsByRankHandler_page_args (cur : Nat) (s : Store) (c : Context)
    (start limit : Int)
    (hfrom : strconv.ParseInt (c.DefaultQuery "from" "0") = some start)
    (hlimit : strconv.Atoi (c.DefaultQuery "limit" "10") = some limit) :
    ∀ ev ∈ (getVaultsByRankHandler cur s c).trace,
      ∀ p, ev.pageArgs = some p → p = (start, min limit 100) := by
  simp only [getVaultsByRankHandler, Run.bind_eq, Run.pure_eq, hfrom, hlimit, clamp_eq_min]
  refine Run.forall_trace_andThen _ _ _ (Run.forall_trace_ofOption _ _ _) (fun a ha => ?_)
  cases ha
  refine Run.forall_trace_andThen _ _ _ (Run.forall_trace_ofOption _ _ _) (fun a ha => ?_)
  cases ha
  refine Run.forall_trace_andThen _ _ _ (Run.forall_trace_ofOption _ _ _) (fun seasonId _ => ?_)
  split
  · refine Run.forall_trace_andThen _ _ _ (Run.forall_trace_call _ _ _ _ (by simp [Event.pageArgs]))
      (fun _ _ => ?_)
    refine Run.forall_trace_andThen _ _ _ (Run.forall_trace_call _ _ _ _ (by simp [Event.pageArgs]))
      (fun _ _ => ?_)
    refine Run.forall_trace_andThen _ _ _ (Run.forall_trace_call _ _ _ _ (by simp [Event.pageArgs]))
      (fun _ _ => ?_)
    refine Run.forall_trace_andThen _ _ _ (Run.forall_trace_call _ _ _ _ (by simp [Event.pageArgs]))
      (fun _ _ => ?_)
    refine Run.forall_trace_andThen _ _ _ (Run.forall_trace_call _ _ _ _ (by simp [Event.pageArgs]))
      (fun _ _ => ?_)
    simp [Run.ret]
  · refine Run.forall_trace_andThen _ _ _ (Run.forall_trace_call _ _ _ _ (by simp [Event.pageArgs]))
      (fun _ _ => ?_)
    refine Run.forall_trace_andThen _ _ _ (Run.forall_trace_call _ _ _ _ (by simp [Event.pageArgs]))
      (fun _ _ => ?_)
    refine Run.forall_trace_andThen _ _ _ (Run.forall_trace_call _ _ _ _ (by simp [Event.pageArgs]))
      (fun _ _ => ?_)
    refine Run.forall_trace_andThen _ _ _ (Run.forall_trace_call _ _ _ _ (by simp [Event.pageArgs]))
      (fun _ _ => ?_)
    refine Run.forall_trace_andThen _ _ _ (Run.forall_trace_call _ _ _ _ (by simp [Event.pageArgs]))
      (fun total _ => ?_)
    refine Run.forall_trace_andThen _ _ _ (by simp [Run.emit, Event.pageArgs]) (fun _ _ => ?_)
    refine Run.forall_trace_andThen _ _ _ ?_ (fun _ _ => ?_)
    · intro ev hev p hp
      have := closedSeasonLoop_events_isDiv _ _ _ _ _ ev hev
      cases ev <;> simp [Event.isDiv, Event.pageArgs] at this hp
    · split <;> simp [Run.fail, Run.ret]

/-- Every call of `getVaultsByVolumeHandler` that fetches a page receives the parsed `from`
and the parsed `limit` cut down to 100. -/
theorem getVaultsByVolumeHandler_page_args (s : Store) (c : Context) (start limit : Int)
    (hfrom : strconv.ParseInt (c.DefaultQuery "from" "0") = some start)
    (hlimit : strconv.Atoi (c.DefaultQuery "limit" "10") = some limit) :
    ∀ ev ∈ (getVaultsByVolumeHandler s c).trace,
      ∀ p, ev.pageArgs = some p → p = (start, min limit 100) := by
  simp only [getVaultsByVolumeHandler, Run.bind_eq, Run.pure_eq, hfrom, hlimit, clamp_eq_min]
  refine Run.forall_trace_andThen _ _ _ (Run.forall_trace_ofOption _ _ _) (fun a ha => ?_)
  cases ha
  refine Run.forall_trace_andThen _ _ _ (Run.forall_trace_ofOption _ _ _) (fun a ha => ?_)
  cases ha
  refine Run.forall_trace_andThen _ _ _ (Run.forall_trace_call _ _ _ _ (by simp [Event.pageArgs]))
    (fun _ _ => ?_)
  refine Run.forall_trace_andThen _ _ _ (Run.forall_trace_call _ _ _ _ (by simp [Event.pageArgs]))
    (fun _ _ => ?_)
  refine Run.forall_trace_andThen _ _ _ (Run.forall_trace_call _ _ _ _ (by simp [Event.pageArgs]))
    (fun _ _ => ?_)
  simp [Run.ret]

end handlers

theorem wrapInt64_add_wrap (a b : Int) : wrapInt64 (a + wrapInt64 b) = wrapInt64 (a + b) := by
  unfold wrapInt64
  omega

theorem wrapInt64_of_range (n : Int) (h1 : -2 ^ 63 ≤ n) (h2 : n < 2 ^ 63) : wrapInt64 n = n := by
  unfold wrapInt64
  omega

namespace strconv

theorem ParseInt_range (s : GoString) (n : Int) (h : ParseInt s = some n) :
    -2 ^ 63 ≤ n ∧ n < 2 ^ 63 := by
  unfold ParseInt at h
  split at h
  · cases h
  · next b rest =>
    simp only at h
    split at h
    · cases h
    · next un _ =>
      split at h
      · cases h
      · next h1 =>
        split at h
        · cases h
        · next h2 =>
          simp only [Option.some.injEq] at h
          by_cases hb : b = 45
          · simp [hb] at h h1 h2
            omega
          · simp [hb] at h h1 h2
            omega

end strconv

namespace handlers

open models

theorem closedSeasonVault_rank (seasonId : Nat) (start : Int) (total : Float64) (i : Nat)
    (v : Vault) :
    (closedSeasonVault seasonId start total i v).1.Rank = wrapInt64 (start + (i : Int) + 1) := by
  unfold closedSeasonVault
  split <;> simp only [wrapInt64_add_wrap, add_assoc]

theorem closedSeasonVault_shift (seasonId : Nat) (total : Float64) (k i : Nat) (v : Vault) :
    (closedSeasonVault seasonId (k : Int) total i v).1
      = (closedSeasonVault seasonId 0 total (k + i) v).1 := by
  have h : wrapInt64 ((k : Int) + wrapInt64 ((i : Int) + 1))
      = wrapInt64 (0 + wrapInt64 (((k + i : Nat) : Int) + 1)) := by
    rw [wrapInt64_add_wrap, wrapInt64_add_wrap]
    congr 1
    push_cast
    ring
  unfold closedSeasonVault
  split <;> simp only [h]

theorem closedSeasonVault_fields (seasonId : Nat) (start : Int) (total : Float64) (i : Nat)
    (v : Vault) :
    (closedSeasonVault seasonId start total i v).1.TotalPoints = v.TotalPoints
      ∧ vaultName (closedSeasonVault seasonId start total i v).1 = vaultName v := by
  unfold closedSeasonVault
  split <;> exact ⟨rfl, rfl⟩

theorem closedSeasonLoop_page (seasonId : Nat) (total : Float64) (all : List Vault) (k n : Nat) :
    (closedSeasonLoop seasonId (k : Int) total 0 ((all.drop k).take n)).1
      = ((closedSeasonLoop seasonId 0 total 0 all).1.drop k).take n := by
  apply List.ext_getElem?
  intro i
  rw [closedSeasonLoop_getElem?, List.getElem?_take, List.getElem?_take]
  by_cases hi : i < n
  · simp only [hi, if_true, List.getElem?_drop, closedSeasonLoop_getElem?, zero_add]
    cases all[k + i]? with
    | none => simp only [Option.map_none']
    | some v => simp only [Option.map_some', closedSeasonVault_shift]
  · simp [hi]

theorem flatten_pages {α : Type} (xs : List α) (n K : Nat) :
    ((List.range K).map (fun k => (xs.drop (k * n)).take n)).flatten = xs.take (K * n) := by
  induction K with
  | zero => simp
  | succ K ih =>
    rw [List.range_succ, List.map_append, List.flatten_append, ih, Nat.succ_mul, List.take_add]
    simp

end handlers

namespace handlers

open models

/-- C5, amended: in `getVaultsByRankHandler`, for a closed season, the vault at offset `i` of
the page the store returns is reported with rank `from + i + 1` (the `int64` sum, which is the
integer `from + i + 1` unless that exceeds the largest `int64`), whatever rank is stored; over
a store that serves consecutive slices of one ordered list `all`, the pages requested at
`from = 0, L, 2 * L, ...` with `L = min(limit, 100)` for a `limit` of at least 1 (the pages
`[0, limit)`, `[limit, 2 * limit)`, ... when `limit` is at most 100) put end to end list the
vaults of `all` in order, the vault at position `j` (from 0) with rank `j + 1`; and `from=95`,
`limit=10` over a season of 100 vaults gives 5 entries ranked 96, 97, 98, 99, 100. -/
theorem C5_rank_is_page_position :
    (∀ (cur : Nat) (s : Store) (c : Context) (start limit : Int) (seasonId : Nat)
        (count balance lp nft : Int) (total : Float64) (vaults : List Vault),
        strconv.ParseInt (c.DefaultQuery "from" "0") = some start →
        strconv.Atoi (c.DefaultQuery "limit" "10") = some limit →
        strconv.ParseUint (c.DefaultQuery "season" "0") = some seasonId →
        seasonId ≠ cur →
        s.GetLeaderVaultCountBySeason seasonId = .ok count →
        s.GetLeaderVaultTotalBalanceBySeason seasonId = .ok balance →
        s.GetLeaderVaultTotalLPBySeason seasonId = .ok lp →
        s.GetLeaderVaultTotalNFTBySeason seasonId = .ok nft →
        s.GetLeaderVaultTotalPointsBySeason seasonId = .ok total →
        s.GetLeaderVaultsBySeason seasonId start (min limit 100) = (vaults, none) →
        ∃ resp, (getVaultsByRankHandler cur s c).result = .ok resp
          ∧ resp.Vaults.length = vaults.length
          ∧ ∀ i, i < vaults.length →
              ∃ entry, resp.Vaults[i]? = some entry
                ∧ entry.Rank = wrapInt64 (start + i + 1)
                ∧ (start + i + 1 < 2 ^ 63 → entry.Rank = start + i + 1))
    ∧ (∀ (cur : Nat) (s : Store) (ctx : Nat → Context) (limit : Int) (seasonId : Nat)
        (count balance lp nft : Int) (total : Float64) (all : List Vault) (K : Nat),
        1 ≤ limit →
        all.length < 2 ^ 63 →
        (∀ k, k < K → strconv.ParseInt ((ctx k).DefaultQuery "from" "0")
            = some ((k * (min limit 100).toNat : Nat) : Int)) →
        (∀ k, k < K → strconv.Atoi ((ctx k).DefaultQuery "limit" "10") = some limit) →
        (∀ k, k < K → strconv.ParseUint ((ctx k).DefaultQuery "season" "0") = some seasonId) →
        seasonId ≠ cur →
        s.GetLeaderVaultCountBySeason seasonId = .ok count →
        s.GetLeaderVaultTotalBalanceBySeason seasonId = .ok balance →
        s.GetLeaderVaultTotalLPBySeason seasonId = .ok lp →
        s.GetLeaderVaultTotalNFTBySeason seasonId = .ok nft →
        s.GetLeaderVaultTotalPointsBySeason seasonId = .ok total →
        (∀ f l : Nat, s.GetLeaderVaultsBySeason seasonId (f : Int) (l : Int)
            = ((all.drop f).take l, none)) →
        ∃ resp : Nat → VaultsResponse,
          (∀ k, k < K → (getVaultsByRankHandler cur s (ctx k)).result = .ok (resp k))
            ∧ (((List.range K).map (fun k => (resp k).Vaults)).flatten).length
                = min (K * (min limit 100).toNat) all.length
            ∧ ∀ j, j < min (K * (min limit 100).toNat) all.length →
                ∃ v entry, all[j]? = some v
                  ∧ (((List.range K).map (fun k => (resp k).Vaults)).flatten)[j]? = some entry
                  ∧ entry.Rank = (j : Int) + 1
                  ∧ entry.TotalPoints = v.TotalPoints
                  ∧ entry.Name = vaultName v)
    ∧ ((getVaultsByRankHandler 1
          (sample.store [] (fun _ => sample.season 100) (fun _ => .fin 100))
          (sample.request [("from", "95"), ("limit", "10"), ("season", "0")] [])).result.toOption.map
        (fun resp => resp.Vaults.map (fun entry => entry.Rank))
          = some [96, 97, 98, 99, 100]) := by
  refine ⟨?_, ?_, by decide!⟩
  · intro cur s c start limit seasonId count balance lp nft total vaults hfrom hlimit hseason
      hclosed hcount hbalance hlp hnft htotal hfetched
    have hrun := getVaultsByRankHandler_closed cur s c start limit seasonId count balance lp nft
      total (vaults, none) hfrom hlimit hseason hclosed hcount hbalance hlp hnft htotal hfetched
    rw [hrun]
    refine ⟨_, rfl, ?_, ?_⟩
    · simp only [List.length_map, closedSeasonLoop_length]
    · intro i hi
      have hget : vaults[i]? = some vaults[i] := List.getElem?_eq_getElem hi
      refine ⟨rankResponse (closedSeasonVault seasonId start total i vaults[i]).1, ?_, ?_, ?_⟩
      · simp only [List.getElem?_map, closedSeasonLoop_getElem?, hget, Option.map_some',
          zero_add]
      · exact closedSeasonVault_rank _ _ _ _ _
      · intro hlt
        have hr := strconv.ParseInt_range _ _ hfrom
        show (closedSeasonVault seasonId start total i vaults[i]).1.Rank = _
        rw [closedSeasonVault_rank]
        exact wrapInt64_of_range _ (by omega) hlt
  · intro cur s ctx limit seasonId count balance lp nft total all K hlimit1 hlen hfrom hlimit
      hseason hclosed hcount hbalance hlp hnft htotal hslices
    have hL : ((min limit 100).toNat : Int) = min limit 100 := Int.toNat_of_nonneg (by omega)
    let single := (closedSeasonLoop seasonId 0 total 0 all).1.map rankResponse
    let resp : Nat → VaultsResponse := fun k =>
      { Vaults := (single.drop (k * (min limit 100).toNat)).take (min limit 100).toNat
        TotalVaultCount := count, TotalBalance := balance, TotalLP := lp, TotalNFT := nft }
    have hpages : ((List.range K).map (fun k => (resp k).Vaults)).flatten
        = single.take (K * (min limit 100).toNat) := flatten_pages single _ K
    have hsingle : single.length = all.length := by
      simp only [single, List.length_map, closedSeasonLoop_length]
    refine ⟨resp, ?_, ?_, ?_⟩
    · intro k hk
      have hf := hslices (k * (min limit 100).toNat) (min limit 100).toNat
      rw [hL] at hf
      have hrun := getVaultsByRankHandler_closed cur s (ctx k) _ limit seasonId count balance lp
        nft total _ (hfrom k hk) (hlimit k hk) (hseason k hk) hclosed hcount hbalance hlp hnft
        htotal hf
      rw [hrun]
      simp only [resp, single, closedSeasonLoop_page, List.map_take, List.map_drop]
    · rw [hpages, List.length_take, hsingle]
    · intro j hj
      have hjK : j < K * (min limit 100).toNat := lt_of_lt_of_le hj (min_le_left _ _)
      have hjN : j < all.length := lt_of_lt_of_le hj (min_le_right _ _)
      have hget : all[j]? = some all[j] := List.getElem?_eq_getElem hjN
      refine ⟨all[j], rankResponse (closedSeasonVault seasonId 0 total j all[j]).1, hget, ?_, ?_,
        ?_, ?_⟩
      · rw [hpages, List.getElem?_take]
        simp only [hjK, if_true, single, List.getElem?_map, closedSeasonLoop_getElem?, hget,
          Option.map_some', zero_add]
      · show (closedSeasonVault seasonId 0 total j all[j]).1.Rank = _
        rw [closedSeasonVault_rank, zero_add]
        exact wrapInt64_of_range _ (by omega) (by omega)
      · exact (closedSeasonVault_fields _ _ _ _ _).1
      · exact (closedSeasonVault_fields _ _ _ _ _).2

end handlers

namespace handlers

open models

theorem volumeRankLoop_length (start : Int) (vaults : List Vault) (i : Nat) :
    (volumeRankLoop start i vaults).length = vaults.length := by
  induction vaults generalizing i with
  | nil => rfl
  | cons v rest ih => simp [volumeRankLoop, ih]

theorem Run.result_andThen_ne {α β : Type} (x : Run α) (f : α → Run β) (e : ApiError)
    (hx : x.result ≠ .error e) (hf : ∀ a, x.result = .ok a → (f a).result ≠ .error e) :
    (x.andThen f).result ≠ .error e := by
  unfold Run.andThen
  split
  · next e' h => simpa [h] using hx
  · next a h => exact hf a h

theorem Run.result_call_ne {α : Type} (c : StoreCall) (r : Except GoError α) (e e' : ApiError)
    (h : e ≠ e') : (Run.call c r e).result ≠ .error e' := by
  unfold Run.call
  split <;> simp [h]

/-- C6, amended: a leaderboard entry of `getVaultsByRankHandler` (current and closed season)
and of `getVaultsByVolumeHandler` shows, as `Name` and as `Alias`, the name `vaultName` of the
vault the store returned at that position: the vault's `Alias` when `ShowNameInLeaderboard`
is true, and otherwise the first 10 bytes of its `Uid`, the whole `Uid` when it has fewer
than 10 bytes; the bound of the slice never exceeds the length of the `Uid` in bytes, the
empty one included. `"abcdef"` shows as `"abcdef"` and `"abcdefghijk"` as `"abcdefghij"`. -/
theorem C6_masked_leaderboard_name :
    (∀ v : Vault,
        maskLength v.Uid ≤ v.Uid.length
          ∧ (v.ShowNameInLeaderboard = false →
              vaultName v = v.Uid.take 10 ∧ (v.Uid.length < 10 → vaultName v = v.Uid))
          ∧ (v.ShowNameInLeaderboard = true → vaultName v = v.Alias))
    ∧ (∀ (cur : Nat) (s : Store) (c : Context) (start limit : Int) (seasonId : Nat)
        (count balance lp nft : Int) (total : Float64) (vaults : List Vault),
        strconv.ParseInt (c.DefaultQuery "from" "0") = some start →
        strconv.Atoi (c.DefaultQuery "limit" "10") = some limit →
        strconv.ParseUint (c.DefaultQuery "season" "0") = some seasonId →
        seasonId ≠ cur →
        s.GetLeaderVaultCountBySeason seasonId = .ok count →
        s.GetLeaderVaultTotalBalanceBySeason seasonId = .ok balance →
        s.GetLeaderVaultTotalLPBySeason seasonId = .ok lp →
        s.GetLeaderVaultTotalNFTBySeason seasonId = .ok nft →
        s.GetLeaderVaultTotalPointsBySeason seasonId = .ok total →
        s.GetLeaderVaultsBySeason seasonId start (min limit 100) = (vaults, none) →
        ∃ resp, (getVaultsByRankHandler cur s c).result = .ok resp
          ∧ resp.Vaults.map (fun entry => (entry.Name, entry.Alias))
              = vaults.map (fun v => (vaultName v, vaultName v)))
    ∧ (∀ (cur : Nat) (s : Store) (c : Context) (start limit : Int)
        (count balance lp nft : Int) (vaults : List Vault),
        strconv.ParseInt (c.DefaultQuery "from" "0") = some start →
        strconv.Atoi (c.DefaultQuery "limit" "10") = some limit →
        strconv.ParseUint (c.DefaultQuery "season" "0") = some cur →
        s.GetLeaderVaultCount = .ok count →
        s.GetLeaderVaultTotalBalance = .ok balance →
        s.GetLeaderVaultTotalLP = .ok lp →
        s.GetLeaderVaultTotalNFT = .ok nft →
        s.GetLeaderVaults start (min limit 100) = .ok vaults →
        ∃ resp, (getVaultsByRankHandler cur s c).result = .ok resp
          ∧ resp.Vaults.map (fun entry => (entry.Name, entry.Alias))
              = vaults.map (fun v => (vaultName v, vaultName v)))
    ∧ (∀ (s : Store) (c : Context) (start limit : Int) (count : Int) (volume : Float64)
        (vaults : List Vault),
        strconv.ParseInt (c.DefaultQuery "from" "0") = some start →
        strconv.Atoi (c.DefaultQuery "limit" "10") = some limit →
        s.GetLeaderVaultCount = .ok count →
        s.GetLeaderVaultTotalVolume = .ok volume →
        s.GetSwapLeaderVaults start (min limit 100) = .ok vaults →
        ∃ resp, (getVaultsByVolumeHandler s c).result = .ok resp
          ∧ resp.Vaults.map (fun entry => (entry.Name, entry.Alias))
              = vaults.map (fun v => (vaultName v, vaultName v)))
    ∧ vaultName { sample.vault 1 "k" "abcdef" (.fin 0) 0 with ShowNameInLeaderboard := false }
        = gostr "abcdef"
    ∧ vaultName { sample.vault 1 "k" "abcdefghijk" (.fin 0) 0 with ShowNameInLeaderboard := false }
        = gostr "abcdefghij"
    ∧ vaultName { sample.vault 1 "k" "" (.fin 0) 0 with ShowNameInLeaderboard := false } = [] := by
  refine ⟨?_, ?_, ?_, ?_, by decide, by decide, by decide⟩
  · intro v
    refine ⟨?_, ?_, ?_⟩
    · unfold maskLength
      split <;> omega
    · intro h
      unfold vaultName maskLength
      simp only [h, Bool.not_false, if_true]
      refine ⟨?_, ?_⟩
      · split
        · next hlt => rw [List.take_of_length_le (le_refl _), List.take_of_length_le (by omega)]
        · rfl
      · intro hlt
        rw [if_pos hlt, List.take_of_length_le (le_refl _)]
    · intro h
      unfold vaultName
      simp [h]
  · intro cur s c start limit seasonId count balance lp nft total vaults hfrom hlimit hseason
      hclosed hcount hbalance hlp hnft htotal hfetched
    rw [getVaultsByRankHandler_closed cur s c start limit seasonId count balance lp nft
      total (vaults, none) hfrom hlimit hseason hclosed hcount hbalance hlp hnft htotal hfetched]
    refine ⟨_, rfl, ?_⟩
    apply List.ext_getElem?
    intro i
    simp only [List.getElem?_map, closedSeasonLoop_getElem?]
    cases vaults[i]? with
    | none => simp only [Option.map_none']
    | some v =>
      simp only [Option.map_some', rankResponse, (closedSeasonVault_fields _ _ _ _ _).2]
  · intro cur s c start limit count balance lp nft vaults hfrom hlimit hseason hcount hbalance
      hlp hnft hvaults
    rw [getVaultsByRankHandler_current cur s c start limit count balance lp nft vaults hfrom
      hlimit hseason hcount hbalance hlp hnft hvaults]
    refine ⟨_, rfl, ?_⟩
    simp only [List.map_map]
    rfl
  · intro s c start limit count volume vaults hfrom hlimit hcount hvolume hvaults
    rw [getVaultsByVolumeHandler_run s c start limit count volume vaults hfrom hlimit hcount
      hvolume hvaults]
    refine ⟨_, rfl, ?_⟩
    apply List.ext_getElem?
    intro i
    simp only [List.getElem?_map, volumeRankLoop_getElem?]
    cases vaults[i]? with
    | none => simp only [Option.map_none']
    | some v => simp only [Option.map_some', volumeResponse, vaultName]

end handlers

namespace handlers

open models

theorem getVaultsByRankHandler_not_invalid (cur : Nat) (s : Store) (c : Context)
    (start limit : Int) (seasonId : Nat)
    (hfrom : strconv.ParseInt (c.DefaultQuery "from" "0") = some start)
    (hlimit : strconv.Atoi (c.DefaultQuery "limit" "10") = some limit)
    (hseason : strconv.ParseUint (c.DefaultQuery "season" "0") = some seasonId) :
    (getVaultsByRankHandler cur s c).result ≠ .error .errInvalidRequest := by
  simp only [getVaultsByRankHandler, Run.bind_eq, Run.pure_eq, hfrom, hlimit, hseason,
    Run.ofOption_some, Run.andThen_mk_ok]
  split
  · refine Run.result_andThen_ne _ _ _ (Run.result_call_ne _ _ _ _ (by decide)) (fun _ _ => ?_)
    refine Run.result_andThen_ne _ _ _ (Run.result_call_ne _ _ _ _ (by decide)) (fun _ _ => ?_)
    refine Run.result_andThen_ne _ _ _ (Run.result_call_ne _ _ _ _ (by decide)) (fun _ _ => ?_)
    refine Run.result_andThen_ne _ _ _ (Run.result_call_ne _ _ _ _ (by decide)) (fun _ _ => ?_)
    refine Run.result_andThen_ne _ _ _ (Run.result_call_ne _ _ _ _ (by decide)) (fun _ _ => ?_)
    simp [Run.ret]
  · refine Run.result_andThen_ne _ _ _ (Run.result_call_ne _ _ _ _ (by decide)) (fun _ _ => ?_)
    refine Run.result_andThen_ne _ _ _ (Run.result_call_ne _ _ _ _ (by decide)) (fun _ _ => ?_)
    refine Run.result_andThen_ne _ _ _ (Run.result_call_ne _ _ _ _ (by decide)) (fun _ _ => ?_)
    refine Run.result_andThen_ne _ _ _ (Run.result_call_ne _ _ _ _ (by decide)) (fun _ _ => ?_)
    refine Run.result_andThen_ne _ _ _ (Run.result_call_ne _ _ _ _ (by decide)) (fun _ _ => ?_)
    refine Run.result_andThen_ne _ _ _ (by simp [Run.emit]) (fun _ _ => ?_)
    refine Run.result_andThen_ne _ _ _ (by simp [Run.emit]) (fun _ _ => ?_)
    split <;> simp [Run.fail, Run.ret]

theorem getVaultsByVolumeHandler_not_invalid (s : Store) (c : Context) (start limit : Int)
    (hfrom : strconv.ParseInt (c.DefaultQuery "from" "0") = some start)
    (hlimit : strconv.Atoi (c.DefaultQuery "limit" "10") = some limit) :
    (getVaultsByVolumeHandler s c).result ≠ .error .errInvalidRequest := by
  simp only [getVaultsByVolumeHandler, Run.bind_eq, Run.pure_eq, hfrom, hlimit,
    Run.ofOption_some, Run.andThen_mk_ok]
  refine Run.result_andThen_ne _ _ _ (Run.result_call_ne _ _ _ _ (by decide)) (fun _ _ => ?_)
  refine Run.result_andThen_ne _ _ _ (Run.result_call_ne _ _ _ _ (by decide)) (fun _ _ => ?_)
  refine Run.result_andThen_ne _ _ _ (Run.result_call_ne _ _ _ _ (by decide)) (fun _ _ => ?_)
  simp [Run.ret]

end handlers

namespace Float64

theorem lt_zero_of_eq_zero (x : Float64) (h : x.eq (.fin 0) = true) :
    Float64.lt (.fin 0) x = false := by
  cases x with
  | nan => simp [Float64.eq] at h
  | inf s => simp [Float64.eq] at h
  | negZero => simp [Float64.lt, Float64.val]
  | fin q =>
    simp only [Float64.eq, Float64.val, decide_eq_true_eq] at h
    simp [Float64.lt, Float64.val, h]

theorem ofNat_pool_first : ofNat 1000000 = fin 1000000 := by decide!

theorem ofNat_pool_later : ofNat 1250000 = fin 1250000 := by decide!

end Float64

namespace handlers

open models

theorem closedSeasonLoop_zero (seasonId : Nat) (start : Int) (total : Float64)
    (h : Float64.lt (.fin 0) total = false) (vaults : List Vault) (i : Nat) :
    (closedSeasonLoop seasonId start total i vaults).2 = []
      ∧ ∀ v ∈ (closedSeasonLoop seasonId start total i vaults).1, v.Balance = 0 := by
  induction vaults generalizing i with
  | nil => simp [closedSeasonLoop]
  | cons v rest ih =>
    have hv : closedSeasonVault seasonId start total i v
        = ({ v with Rank := wrapInt64 (start + wrapInt64 ((i : Int) + 1)), Balance := 0 }, []) := by
      unfold closedSeasonVault
      simp only [h, Bool.false_eq_true, if_false]
    simp only [closedSeasonLoop, hv, List.nil_append, (ih (i + 1)).1, List.mem_cons,
      forall_eq_or_imp, true_and]
    exact (ih (i + 1)).2

/-- The runs of `getVaultsByRankHandler` for a closed season: either some parse or some call
before the fetch of the vaults failed, and then an error is reported and nothing was divided,
or all of them succeeded. -/
theorem getVaultsByRankHandler_closed_cases (cur : Nat) (s : Store) (c : Context)
    (seasonId : Nat)
    (hseason : strconv.ParseUint (c.DefaultQuery "season" "0") = some seasonId)
    (hclosed : seasonId ≠ cur) :
    ((∃ e, (getVaultsByRankHandler cur s c).result = .error e)
        ∧ ∀ ev ∈ (getVaultsByRankHandler cur s c).trace, ev.isDiv = false)
      ∨ ∃ (start limit count balance lp nft : Int) (total : Float64),
          strconv.ParseInt (c.DefaultQuery "from" "0") = some start
            ∧ strconv.Atoi (c.DefaultQuery "limit" "10") = some limit
            ∧ s.GetLeaderVaultCountBySeason seasonId = .ok count
            ∧ s.GetLeaderVaultTotalBalanceBySeason seasonId = .ok balance
            ∧ s.GetLeaderVaultTotalLPBySeason seasonId = .ok lp
            ∧ s.GetLeaderVaultTotalNFTBySeason seasonId = .ok nft
            ∧ s.GetLeaderVaultTotalPointsBySeason seasonId = .ok total := by
  cases hfrom : strconv.ParseInt (c.DefaultQuery "from" "0") with
  | none =>
    left
    simp [getVaultsByRankHandler, Run.bind_eq, hfrom, Run.ofOption, Run.fail, Run.andThen]
  | some start =>
  cases hlimit : strconv.Atoi (c.DefaultQuery "limit" "10") with
  | none =>
    left
    simp [getVaultsByRankHandler, Run.bind_eq, hfrom, hlimit, Run.ofOption, Run.fail, Run.ret,
      Run.andThen]
  | some limit =>
  cases hcount : s.GetLeaderVaultCountBySeason seasonId with
  | error e =>
    left
    simp [getVaultsByRankHandler, Run.bind_eq, hfrom, hlimit, hseason, hclosed, hcount,
      Run.ofOption, Run.ret, Run.andThen, Run.call, Event.isDiv]
  | ok count =>
  cases hbalance : s.GetLeaderVaultTotalBalanceBySeason seasonId with
  | error e =>
    left
    simp [getVaultsByRankHandler, Run.bind_eq, hfrom, hlimit, hseason, hclosed, hcount, hbalance,
      Run.ofOption, Run.ret, Run.andThen, Run.call, Event.isDiv]
  | ok balance =>
  cases hlp : s.GetLeaderVaultTotalLPBySeason seasonId with
  | error e =>
    left
    simp [getVaultsByRankHandler, Run.bind_eq, hfrom, hlimit, hseason, hclosed, hcount, hbalance,
      hlp, Run.ofOption, Run.ret, Run.andThen, Run.call, Event.isDiv]
  | ok lp =>
  cases hnft : s.GetLeaderVaultTotalNFTBySeason seasonId with
  | error e =>
    left
    simp [getVaultsByRankHandler, Run.bind_eq, hfrom, hlimit, hseason, hclosed, hcount, hbalance,
      hlp, hnft, Run.ofOption, Run.ret, Run.andThen, Run.call, Event.isDiv]
  | ok nft =>
  cases htotal : s.GetLeaderVaultTotalPointsBySeason seasonId with
  | error e =>
    left
    simp [getVaultsByRankHandler, Run.bind_eq, hfrom, hlimit, hseason, hclosed, hcount, hbalance,
      hlp, hnft, htotal, Run.ofOption, Run.ret, Run.andThen, Run.call, Event.isDiv]
  | ok total =>
    right
    exact ⟨start, limit, count, balance, lp, nft, total, rfl, rfl, rfl, rfl, rfl, rfl, rfl⟩

/-- C1: in `getVaultsByRankHandler`, for a closed season whose total of season points is 0
(`totalSeasonPoints == 0`), no run evaluates a `float64` division, and every entry of every
response has `Balance` 0; the response is written, one entry for each vault of the page, when
the parses and the calls of the store succeed. -/
theorem C1_zero_total_gives_zero_allocation (cur : Nat) (s : Store) (c : Context)
    (seasonId : Nat) (total : Float64)
    (hseason : strconv.ParseUint (c.DefaultQuery "season" "0") = some seasonId)
    (hclosed : seasonId ≠ cur)
    (htotal : s.GetLeaderVaultTotalPointsBySeason seasonId = .ok total)
    (hzero : total.eq (.fin 0) = true) :
    (∀ ev ∈ (getVaultsByRankHandler cur s c).trace, ev.isDiv = false)
      ∧ (∀ resp, (getVaultsByRankHandler cur s c).result = .ok resp →
          ∀ entry ∈ resp.Vaults, entry.Balance = 0)
      ∧ (∀ (start limit count balance lp nft : Int) (vaults : List Vault),
          strconv.ParseInt (c.DefaultQuery "from" "0") = some start →
          strconv.Atoi (c.DefaultQuery "limit" "10") = some limit →
          s.GetLeaderVaultCountBySeason seasonId = .ok count →
          s.GetLeaderVaultTotalBalanceBySeason seasonId = .ok balance →
          s.GetLeaderVaultTotalLPBySeason seasonId = .ok lp →
          s.GetLeaderVaultTotalNFTBySeason seasonId = .ok nft →
          s.GetLeaderVaultsBySeason seasonId start (min limit 100) = (vaults, none) →
          ∃ resp, (getVaultsByRankHandler cur s c).result = .ok resp
            ∧ resp.Vaults.map (fun entry => entry.Balance) = vaults.map (fun _ => 0)) := by
  have hlt := Float64.lt_zero_of_eq_zero total hzero
  have hrun := fun start limit count balance lp nft hfrom hlimit hcount hbalance hlp hnft =>
    getVaultsByRankHandler_closed cur s c start limit seasonId count balance lp nft total
      (s.GetLeaderVaultsBySeason seasonId start (min limit 100)) hfrom hlimit hseason hclosed
      hcount hbalance hlp hnft htotal rfl
  refine ⟨?_, ?_, ?_⟩
  · rcases getVaultsByRankHandler_closed_cases cur s c seasonId hseason hclosed with
      ⟨-, h⟩ | ⟨start, limit, count, balance, lp, nft, total', hfrom, hlimit, hcount, hbalance,
        hlp, hnft, -⟩
    · exact h
    · rw [hrun start limit count balance lp nft hfrom hlimit hcount hbalance hlp hnft]
      simp [(closedSeasonLoop_zero seasonId start total hlt _ 0).1, Event.isDiv]
  · intro resp hresp entry hentry
    rcases getVaultsByRankHandler_closed_cases cur s c seasonId hseason hclosed with
      ⟨⟨e, he⟩, -⟩ | ⟨start, limit, count, balance, lp, nft, total', hfrom, hlimit, hcount,
        hbalance, hlp, hnft, -⟩
    · rw [he] at hresp
      cases hresp
    · rw [hrun start limit count balance lp nft hfrom hlimit hcount hbalance hlp hnft] at hresp
      simp only at hresp
      split at hresp
      · cases hresp
      · cases hresp
        simp only [List.mem_map] at hentry
        obtain ⟨v, hv, rfl⟩ := hentry
        exact (closedSeasonLoop_zero seasonId start total hlt _ 0).2 v hv
  · intro start limit count balance lp nft vaults hfrom hlimit hcount hbalance hlp hnft hfetched
    rw [hrun start limit count balance lp nft hfrom hlimit hcount hbalance hlp hnft, hfetched]
    refine ⟨_, rfl, ?_⟩
    apply List.ext_getElem?
    intro i
    simp only [List.getElem?_map, closedSeasonLoop_getElem?]
    cases vaults[i]? with
    | none => simp only [Option.map_none']
    | some v =>
      simp only [Option.map_some', rankResponse, closedSeasonVault, hlt, Bool.false_eq_true,
        if_false]


/-- Witness of C1: a closed season 0 of three vaults without points, total 0; the response
lists the three vaults with `Balance` 0 and the trace holds no division. -/
theorem C1_zero_total_gives_zero_allocation_witness :
    (∀ ev ∈ (getVaultsByRankHandler 1
          (sample.store [] (fun _ => (sample.season 3).map (fun v => { v with TotalPoints := .fin 0 }))
            (fun _ => .fin 0))
          (sample.request [("season", "0")] [])).trace, ev.isDiv = false)
      ∧ (getVaultsByRankHandler 1
          (sample.store [] (fun _ => (sample.season 3).map (fun v => { v with TotalPoints := .fin 0 }))
            (fun _ => .fin 0))
          (sample.request [("season", "0")] [])).result.toOption.map
            (fun resp => resp.Vaults.map (fun entry => entry.Balance)) = some [0, 0, 0] := by
  have hseason : strconv.ParseUint
      ((sample.request [("season", "0")] []).DefaultQuery "season" "0") = some 0 := by decide
  have hzero : Float64.eq (.fin 0) (.fin 0) = true := by decide!
  exact ⟨(C1_zero_total_gives_zero_allocation 1 _ _ 0 (.fin 0) hseason (by decide) rfl hzero).1,
    by decide!⟩

/-! ### `getVaultHandler` -/

/-- The entry of `SeasonActivities` that `getVaultHandler` builds for a season, from what
the store returns for it. -/
theorem seasonActivity_ok (s : Store) (vault : Vault) (season : Season) (total : Float64)
    (stats : SeasonStats) (hclosed : season.ID ≠ vault.CurrentSeasonID)
    (htotal : s.GetLeaderVaultTotalPointsBySeason season.ID = .ok total)
    (hstats : s.GetSeasonStats vault.ID season.ID = .ok stats) :
    seasonActivity s vault season =
      { trace := [.store (.GetLeaderVaultTotalPointsBySeason season.ID),
                  .store (.GetSeasonStats vault.ID season.ID), .fdiv stats.Points total]
        result := .ok { SeasonID := season.ID, Rank := stats.Rank,
                        Points := (stats.Points.div total).mul (totalAirdropPoints season.ID) } } := by
  simp [seasonActivity, hclosed, Run.bind_eq, Run.pure_eq, htotal, hstats, Run.call_ok,
    Run.andThen_mk_ok, Run.emit, Run.ret]

theorem seasonActivity_current (s : Store) (vault : Vault) (season : Season)
    (hcurrent : season.ID = vault.CurrentSeasonID) :
    seasonActivity s vault season =
      { trace := []
        result := .ok { SeasonID := season.ID, Rank := vault.Rank, Points := vault.TotalPoints } } := by
  simp [seasonActivity, hcurrent, Run.pure_eq, Run.ret]

theorem seasonActivities_ok (s : Store) (vault : Vault) (total : Nat → Float64)
    (stats : Nat → SeasonStats) (seasons : List Season) (acc : List SeasonStats)
    (h : ∀ season ∈ seasons, season.ID ≠ vault.CurrentSeasonID →
      s.GetLeaderVaultTotalPointsBySeason season.ID = .ok (total season.ID)
        ∧ s.GetSeasonStats vault.ID season.ID = .ok (stats season.ID)) :
    (seasonActivities s vault seasons acc).result =
      .ok (acc ++ seasons.map (fun season =>
        if season.ID = vault.CurrentSeasonID then
          { SeasonID := season.ID, Rank := vault.Rank, Points := vault.TotalPoints }
        else
          { SeasonID := season.ID, Rank := (stats season.ID).Rank,
            Points := ((stats season.ID).Points.div (total season.ID)).mul
              (totalAirdropPoints season.ID) })) := by
  induction seasons generalizing acc with
  | nil => simp [seasonActivities, Run.pure_eq, Run.ret]
  | cons season rest ih =>
    have hrest := fun acc' => ih acc' (fun x hx => h x (List.mem_cons_of_mem _ hx))
    by_cases hcur : season.ID = vault.CurrentSeasonID
    · simp only [seasonActivities, Run.bind_eq, seasonActivity_current s vault season hcur,
        Run.andThen_mk_ok, hrest, List.map_cons, if_pos hcur, List.append_assoc,
        List.singleton_append]
    · obtain ⟨htotal, hstats⟩ := h season (List.mem_cons_self _ _) hcur
      simp only [seasonActivities, Run.bind_eq,
        seasonActivity_ok s vault season _ _ hcur htotal hstats,
        Run.andThen_mk_ok, hrest, List.map_cons, if_neg hcur, List.append_assoc,
        List.singleton_append]

theorem getVaultHandler_activities (seasons : List Season) (s : Store) (c : Context)
    (vault : Vault) (coins : List CoinDBModel) (total : Nat → Float64)
    (stats : Nat → SeasonStats)
    (hvault : s.GetVault (c.Param "ecdsaPublicKey") (c.Param "eddsaPublicKey") = .ok vault)
    (hcoins : s.GetCoins vault.ID = .ok coins)
    (h : ∀ season ∈ seasons, season.ID ≠ vault.CurrentSeasonID →
      s.GetLeaderVaultTotalPointsBySeason season.ID = .ok (total season.ID)
        ∧ s.GetSeasonStats vault.ID season.ID = .ok (stats season.ID)) :
    ∃ resp, (getVaultHandler seasons s c).result = .ok resp
      ∧ resp.SeasonActivities = seasons.map (fun season =>
        if season.ID = vault.CurrentSeasonID then
          { SeasonID := season.ID, Rank := vault.Rank, Points := vault.TotalPoints }
        else
          { SeasonID := season.ID, Rank := (stats season.ID).Rank,
            Points := ((stats season.ID).Points.div (total season.ID)).mul
              (totalAirdropPoints season.ID) }) := by
  have hact := seasonActivities_ok s vault total stats seasons [] h
  simp only [getVaultHandler, Run.bind_eq, Run.pure_eq, hvault, hcoins, Run.call_ok,
    Run.andThen_mk_ok]
  rw [Run.andThen_ok _ _ _ hact]
  exact ⟨_, rfl, by simp⟩

end handlers

namespace Float64

theorem eq_zero_cases (x : Float64) (h : x.eq (.fin 0) = true) : x = negZero ∨ x = fin 0 := by
  cases x with
  | nan => simp [Float64.eq] at h
  | inf s => simp [Float64.eq] at h
  | negZero => exact Or.inl rfl
  | fin q =>
    simp only [Float64.eq, Float64.val, decide_eq_true_eq] at h
    exact Or.inr (by rw [h])

theorem div_zero_total (p total : Float64) (h : total.eq (.fin 0) = true) :
    p.div total = nan ∨ ∃ s, p.div total = inf s := by
  rcases eq_zero_cases total h with rfl | rfl
  · cases p with
    | nan => exact Or.inl rfl
    | inf s => exact Or.inr ⟨_, rfl⟩
    | negZero => left; simp [div, mag, val]
    | fin x =>
      by_cases hx : x = 0
      · left; simp [div, mag, val, hx]
      · right; simp [div, mag, val, hx]
  · cases p with
    | nan => exact Or.inl rfl
    | inf s => exact Or.inr ⟨_, rfl⟩
    | negZero => left; simp [div, mag, val]
    | fin x =>
      by_cases hx : x = 0
      · left; simp [div, mag, val, hx]
      · right; simp [div, mag, val, hx]

theorem mul_pool_of_nan_or_inf (x pool : Float64) (q : ℚ) (hq : q ≠ 0) (hpool : pool = fin q)
    (h : x = nan ∨ ∃ s, x = inf s) : (x.mul pool).eq (.fin 0) = false := by
  subst hpool
  rcases h with rfl | ⟨s, rfl⟩
  · rfl
  · simp [mul, mag, val, hq, Float64.eq]

end Float64

namespace handlers

open models

/-- C2, the code at the failing input: in `getVaultHandler` the share of a closed season is
`(seasonStats.Points / totalSeasonPoints) * totalAirdropPoints` without a test of the total.
For a total of 0 the quotient is a NaN or an infinity, so the reported `Points` is never 0;
for the closed season 0 of the store `sample.noPoints` (total 0, the vault has 0 points) the
division `0 / 0` is evaluated and `Points` is NaN. -/
theorem C2_getVaultHandler_divides_by_zero_total :
    (∀ (seasonId : Nat) (points total : Float64), total.eq (.fin 0) = true →
        ((points.div total).mul (totalAirdropPoints seasonId)).eq (.fin 0) = false)
      ∧ sample.noPoints.GetLeaderVaultTotalPointsBySeason 0 = .ok (.fin 0)
      ∧ (getVaultHandler [⟨0⟩, ⟨1⟩] sample.noPoints (sample.detail "a")).result.toOption.map
          (fun resp => resp.SeasonActivities.map (fun entry => (entry.SeasonID, entry.Points)))
            = some [(0, .nan), (1, .fin 0)]
      ∧ Event.fdiv (.fin 0) (.fin 0)
          ∈ (getVaultHandler [⟨0⟩, ⟨1⟩] sample.noPoints (sample.detail "a")).trace := by
  refine ⟨?_, rfl, by decide!, by decide!⟩
  intro seasonId points total h
  have hdiv := Float64.div_zero_total points total h
  unfold totalAirdropPoints
  split
  · exact Float64.mul_pool_of_nan_or_inf _ _ 1000000 (by norm_num) Float64.ofNat_pool_first hdiv
  · exact Float64.mul_pool_of_nan_or_inf _ _ 1250000 (by norm_num) Float64.ofNat_pool_later hdiv

/-- C3: in `getVaultHandler`, when the store returns the vault, its coins and, for every
closed season, the total and the statistics of the vault, the response has one entry for each
configured season, and the entry of a closed season `S` with `totalSeasonPoints(S) > 0` has
`Points = seasonStats.Points / totalSeasonPoints(S) * pool(S)` in `float64` arithmetic, with
`pool(S)` 1,000,000 for season 0 and 1,250,000 otherwise. In season 0 with two vaults of 300
and 700 points, total 1000, the reported values are 300,000 and 700,000. -/
theorem C3_closed_season_share :
    (∀ (seasons : List Season) (s : Store) (c : Context) (vault : Vault)
        (coins : List CoinDBModel) (total : Nat → Float64) (stats : Nat → SeasonStats),
        s.GetVault (c.Param "ecdsaPublicKey") (c.Param "eddsaPublicKey") = .ok vault →
        s.GetCoins vault.ID = .ok coins →
        (∀ season ∈ seasons, season.ID ≠ vault.CurrentSeasonID →
          s.GetLeaderVaultTotalPointsBySeason season.ID = .ok (total season.ID)
            ∧ s.GetSeasonStats vault.ID season.ID = .ok (stats season.ID)) →
        ∃ resp, (getVaultHandler seasons s c).result = .ok resp
          ∧ resp.SeasonActivities.length = seasons.length
          ∧ ∀ (i : Nat) (S : Season), seasons[i]? = some S →
              S.ID ≠ vault.CurrentSeasonID →
              Float64.lt (.fin 0) (total S.ID) = true →
              ∃ entry, resp.SeasonActivities[i]? = some entry
                ∧ entry.SeasonID = S.ID
                ∧ entry.Points = ((stats S.ID).Points.div (total S.ID)).mul
                    (if S.ID = 0 then .fin 1000000 else .fin 1250000))
      ∧ (getVaultHandler [⟨0⟩, ⟨1⟩] sample.twoVaults (sample.detail "a")).result.toOption.map
          (fun resp => resp.SeasonActivities.map (fun entry => (entry.SeasonID, entry.Points)))
            = some [(0, .fin 300000), (1, .fin 0)]
      ∧ (getVaultHandler [⟨0⟩, ⟨1⟩] sample.twoVaults (sample.detail "b")).result.toOption.map
          (fun resp => resp.SeasonActivities.map (fun entry => (entry.SeasonID, entry.Points)))
            = some [(0, .fin 700000), (1, .fin 0)] := by
  refine ⟨?_, by decide!, by decide!⟩
  intro seasons s c vault coins total stats hvault hcoins h
  obtain ⟨resp, hresp, hact⟩ :=
    getVaultHandler_activities seasons s c vault coins total stats hvault hcoins h
  refine ⟨resp, hresp, by rw [hact, List.length_map], ?_⟩
  intro i S hS hclosed _
  rw [hact]
  refine ⟨_, by rw [List.getElem?_map, hS, Option.map_some'], ?_, ?_⟩
  · simp only [if_neg hclosed]
  · simp only [if_neg hclosed, totalAirdropPoints]
    split
    · rw [Float64.ofNat_pool_first]
    · rw [Float64.ofNat_pool_later]

end handlers

namespace Float64

/-! ### Rounding error of `float64` arithmetic -/

theorem pow2_eq (e : Int) : pow2 e = (2 : ℚ) ^ e := by
  unfold pow2
  split
  · next h =>
    obtain ⟨n, rfl⟩ := Int.eq_ofNat_of_zero_le h
    simp
  · next h =>
    obtain ⟨n, hn⟩ := Int.exists_eq_neg_ofNat (le_of_lt (not_le.mp h))
    subst hn
    simp

theorem pow2_pos (e : Int) : 0 < pow2 e := by
  rw [pow2_eq]
  positivity

theorem pow2_add (a b : Int) : pow2 (a + b) = pow2 a * pow2 b := by
  simp only [pow2_eq]
  exact zpow_add₀ (by norm_num) a b

theorem pow2_le_pow2 {a b : Int} (h : a ≤ b) : pow2 a ≤ pow2 b := by
  simp only [pow2_eq]
  exact zpow_le_zpow_right₀ (by norm_num) h

theorem log2Fuel_spec (fuel n : Nat) (hfuel : n ≤ fuel) (hn : 0 < n) :
    2 ^ log2Fuel fuel n ≤ n ∧ n < 2 ^ (log2Fuel fuel n + 1) := by
  induction fuel generalizing n with
  | zero => omega
  | succ fuel ih =>
    unfold log2Fuel
    split
    · next h2 =>
      have := ih (n / 2) (by omega) (by omega)
      rw [pow_succ, pow_succ]
      constructor
      · omega
      · omega
    · next h2 =>
      simp
      omega

theorem ilog2_spec (n : Nat) (hn : 0 < n) : 2 ^ ilog2 n ≤ n ∧ n < 2 ^ (ilog2 n + 1) :=
  log2Fuel_spec n n (le_refl n) hn

theorem pow2_flog2_le (q : ℚ) (hq : 0 < q) : pow2 (flog2 q) ≤ q := by
  unfold flog2
  simp only
  split
  · next h => exact h
  · have hnum : 0 < q.num := Rat.num_pos.mpr hq
    have hden : 0 < q.den := q.den_pos
    have ha := (ilog2_spec q.num.natAbs (by omega)).1
    have hb := (ilog2_spec q.den hden).2
    have hqa : q = (q.num.natAbs : ℚ) / (q.den : ℚ) := by
      have h1 : ((q.num.natAbs : Int) : ℚ) = (q.num : ℚ) := by
        rw [Int.natAbs_of_nonneg (le_of_lt hnum)]
      have h2 : ((q.num.natAbs : Int) : ℚ) = (q.num.natAbs : ℚ) := Int.cast_natCast _
      rw [← h2, h1]
      exact (Rat.num_div_den q).symm
    have hA : (2 : ℚ) ^ (ilog2 q.num.natAbs) ≤ (q.num.natAbs : ℚ) := by exact_mod_cast ha
    have hB : (q.den : ℚ) ≤ (2 : ℚ) ^ (ilog2 q.den + 1) := by exact_mod_cast le_of_lt hb
    have hdpos : (0 : ℚ) < q.den := by exact_mod_cast hden
    rw [pow2_eq]
    have hsplit : (2 : ℚ) ^ ((ilog2 q.num.natAbs : Int) - (ilog2 q.den : Int) - 1)
        = (2 : ℚ) ^ (ilog2 q.num.natAbs) / (2 : ℚ) ^ (ilog2 q.den + 1) := by
      rw [show ((ilog2 q.num.natAbs : Int) - (ilog2 q.den : Int) - 1)
          = (ilog2 q.num.natAbs : Int) - ((ilog2 q.den + 1 : Nat) : Int) by push_cast; ring]
      rw [zpow_sub₀ (by norm_num), zpow_natCast, zpow_natCast]
    rw [hsplit]
    conv_rhs => rw [hqa]
    exact div_le_div₀ (by positivity) hA hdpos hB

theorem roundNearestEven_error (n : ℚ) (hn : 0 ≤ n) :
    |(roundNearestEven n : ℚ) - n| ≤ 1 / 2 := by
  have hle : ((⌊n⌋₊ : Nat) : ℚ) ≤ n := Nat.floor_le hn
  have hlt : n < (⌊n⌋₊ : ℚ) + 1 := Nat.lt_floor_add_one n
  unfold roundNearestEven
  simp only
  rw [abs_le]
  split
  · next h => constructor <;> linarith
  · next h =>
    split
    · next h2 =>
      push_cast
      constructor <;> linarith
    · next h2 =>
      have hr : n - (⌊n⌋₊ : ℚ) = 1 / 2 := le_antisymm (not_lt.mp h2) (not_lt.mp h)
      split
      · constructor <;> linarith
      · push_cast
        constructor <;> linarith

theorem roundMag_zero : roundMag 0 = 0 := by decide!

theorem roundMag_nonneg (q : ℚ) : 0 ≤ roundMag q := by
  unfold roundMag
  simp only
  exact mul_nonneg (Nat.cast_nonneg _) (le_of_lt (pow2_pos _))

theorem roundMag_error (q : ℚ) (hq : 0 < q) :
    |roundMag q - q| ≤ pow2 (max (flog2 q) (-1022) - 53) := by
  unfold roundMag
  simp only
  set e := max (flog2 q) (-1022) with he
  have hulp : 0 < pow2 (e - 52) := pow2_pos _
  have hn : 0 ≤ q / pow2 (e - 52) := div_nonneg (le_of_lt hq) (le_of_lt hulp)
  have herr := roundNearestEven_error (q / pow2 (e - 52)) hn
  have hsplit : pow2 (e - 53) = 1 / 2 * pow2 (e - 52) := by
    have hhalf : pow2 (-1) = 1 / 2 := by decide!
    rw [show e - 53 = -1 + (e - 52) by ring, pow2_add, hhalf]
  have hq' : q = q / pow2 (e - 52) * pow2 (e - 52) := by
    field_simp
  rw [hsplit]
  calc |(roundNearestEven (q / pow2 (e - 52)) : ℚ) * pow2 (e - 52) - q|
      = |((roundNearestEven (q / pow2 (e - 52)) : ℚ) - q / pow2 (e - 52)) * pow2 (e - 52)| := by
        rw [sub_mul, ← hq']
    _ = |(roundNearestEven (q / pow2 (e - 52)) : ℚ) - q / pow2 (e - 52)| * pow2 (e - 52) := by
        rw [abs_mul, abs_of_pos hulp]
    _ ≤ 1 / 2 * pow2 (e - 52) := mul_le_mul_of_nonneg_right herr (le_of_lt hulp)

theorem roundMag_normal (q : ℚ) (hq : pow2 (-1022) ≤ q) :
    |roundMag q - q| ≤ q * pow2 (-53) := by
  have hpos : 0 < q := lt_of_lt_of_le (pow2_pos _) hq
  refine le_trans (roundMag_error q hpos) ?_
  rw [show max (flog2 q) (-1022) - 53 = max (flog2 q) (-1022) + -53 by ring, pow2_add]
  refine mul_le_mul_of_nonneg_right ?_ (le_of_lt (pow2_pos _))
  rcases max_cases (flog2 q) (-1022) with ⟨h, -⟩ | ⟨h, -⟩
  · rw [h]
    exact pow2_flog2_le q hpos
  · rw [h]
    exact hq

theorem roundMag_le (q : ℚ) (hq : 0 ≤ q) :
    roundMag q ≤ q + (q + pow2 (-1022)) * pow2 (-53) := by
  rcases eq_or_lt_of_le hq with h0 | hpos
  · rw [← h0, roundMag_zero]
    have := mul_pos (pow2_pos (-1022)) (pow2_pos (-53))
    simp only [zero_add]
    exact le_of_lt this
  · have herr := roundMag_error q hpos
    rw [show max (flog2 q) (-1022) - 53 = max (flog2 q) (-1022) + -53 by ring, pow2_add] at herr
    have hmax : pow2 (max (flog2 q) (-1022)) ≤ q + pow2 (-1022) := by
      rcases max_cases (flog2 q) (-1022) with ⟨h, -⟩ | ⟨h, -⟩
      · rw [h]
        have := pow2_flog2_le q hpos
        have := pow2_pos (-1022)
        linarith
      · rw [h]
        linarith
    have h53 := pow2_pos (-53)
    have := (abs_le.mp herr).2
    nlinarith [mul_le_mul_of_nonneg_right hmax (le_of_lt h53)]

theorem round_false_eq (q : ℚ) (h : roundMag q < pow2 1024) :
    round false q = fin (roundMag q) := by
  unfold round
  split
  · next h0 => rw [h0, roundMag_zero]; rfl
  · simp only
    rw [if_neg (not_le.mpr h)]
    split
    · next hv => rw [hv]; rfl
    · rfl

end Float64

namespace Float64

theorem pow2_neg53 : pow2 (-53) = 1 / 9007199254740992 := by decide!

theorem pow2_neg1022_le : pow2 (-1022) ≤ 1 / 9007199254740992 := by decide!

theorem pow2_1024_ge : (9223372036854775808 : ℚ) ≤ pow2 1024 := by decide!

theorem div_fin_fin (p t : ℚ) (hp : 0 ≤ p) (ht : 0 < t) :
    (fin p).div (fin t) = round false (p / t) := by
  have hs1 : ¬ p < 0 := not_lt.mpr hp
  have hs2 : ¬ t < 0 := not_lt.mpr (le_of_lt ht)
  simp [div, mag, val, sign, abs_of_nonneg hp, abs_of_pos ht, ne_of_gt ht, hs1, hs2]

theorem mul_fin_fin (a b : ℚ) (ha : 0 ≤ a) (hb : 0 ≤ b) :
    (fin a).mul (fin b) = round false (a * b) := by
  have hs1 : ¬ a < 0 := not_lt.mpr ha
  have hs2 : ¬ b < 0 := not_lt.mpr hb
  simp [mul, mag, val, sign, abs_of_nonneg ha, abs_of_nonneg hb, hs1, hs2]

theorem toInt64_fin (y : ℚ) (hy : 0 ≤ y) (hlt : y < 9223372036854775808) :
    (fin y).toInt64 = (⌊y⌋₊ : Int) := by
  have hfl : ((⌊y⌋₊ : Nat) : ℚ) ≤ y := Nat.floor_le hy
  have hlt' : ((⌊y⌋₊ : Nat) : ℚ) < ((9223372036854775808 : Nat) : ℚ) := by
    push_cast
    linarith
  have hnat : ⌊y⌋₊ < 9223372036854775808 := by exact_mod_cast hlt'
  unfold toInt64
  simp only [not_lt.mpr hy, if_false]
  rw [if_pos]
  constructor
  · omega
  · omega

theorem share_arith (pool r d y u m : ℚ) (hu0 : 0 < u) (hu : u ≤ 1 / 9007199254740992)
    (hm0 : 0 < m) (hm : m ≤ 1 / 9007199254740992) (hpool1 : 1 ≤ pool) (hpool2 : pool ≤ 2097152)
    (hr0 : 0 ≤ r) (hr1 : r ≤ 1) (hd0 : 0 ≤ d) (hdle : d ≤ r + (r + m) * u)
    (hdn : m ≤ r → |d - r| ≤ r * u) (hy0 : 0 ≤ y)
    (hyle : y ≤ pool * d + (pool * d + m) * u)
    (hyn : m ≤ pool * d → |y - pool * d| ≤ pool * d * u) :
    d ≤ 2 ∧ y < 9223372036854775808
      ∧ ((⌊y⌋₊ : Nat) : ℚ) ≤ pool * r * (1 + u) ^ 2
      ∧ pool * r * (1 - u) ^ 2 - 1 ≤ ((⌊y⌋₊ : Nat) : ℚ) := by
  have hd2 : d ≤ 2 := by nlinarith
  have hz0 : 0 ≤ pool * d := mul_nonneg (by linarith) hd0
  have hzle : pool * d ≤ 4194304 := by nlinarith
  have hy2 : y < 9223372036854775808 := by nlinarith
  have hx0 : 0 ≤ pool * r := mul_nonneg (by linarith) hr0
  refine ⟨hd2, hy2, ?_, ?_⟩
  · by_cases hx : pool * r < 1 / 2
    · have hzsmall : pool * d ≤ 3 / 4 := by
        have h1 : pool * d ≤ pool * r + pool * ((r + m) * u) := by
          rw [← mul_add]
          exact mul_le_mul_of_nonneg_left hdle (by linarith)
        have h2 : pool * ((r + m) * u) ≤ 2097152 * ((1 + 1) * (1 / 9007199254740992)) := by
          apply mul_le_mul hpool2 _ (by positivity) (by norm_num)
          apply mul_le_mul (by linarith) hu (le_of_lt hu0) (by norm_num)
        norm_num at h2
        linarith
      have hysmall : y < 1 := by
        have h3 : (pool * d + m) * u ≤ (3 / 4 + 1) * (1 / 9007199254740992) := by
          apply mul_le_mul (by linarith) hu (le_of_lt hu0) (by norm_num)
        norm_num at h3
        linarith
      have hfloor : ⌊y⌋₊ = 0 := Nat.floor_eq_zero.mpr hysmall
      rw [hfloor]
      simp only [Nat.cast_zero]
      positivity
    · have hx' : 1 / 2 ≤ pool * r := not_lt.mp hx
      have hrm : m ≤ r := by
        have : 1 / 2 ≤ 2097152 * r := le_trans hx' (mul_le_mul_of_nonneg_right hpool2 hr0)
        linarith
      have hdle' : d ≤ r * (1 + u) := by
        have := (abs_le.mp (hdn hrm)).2
        linarith
      have hzle' : pool * d ≤ pool * r * (1 + u) := by
        rw [mul_assoc]
        exact mul_le_mul_of_nonneg_left hdle' (by linarith)
      have hdge : r * (1 - u) ≤ d := by
        have := (abs_le.mp (hdn hrm)).1
        linarith
      have hzge : pool * r * (1 - u) ≤ pool * d := by
        rw [mul_assoc]
        exact mul_le_mul_of_nonneg_left hdge (by linarith)
      have hzm : m ≤ pool * d := by
        have h1 : 1 / 2 * (1 - u) ≤ pool * r * (1 - u) :=
          mul_le_mul_of_nonneg_right hx' (by linarith)
        nlinarith
      have hyle' : y ≤ pool * d * (1 + u) := by
        have := (abs_le.mp (hyn hzm)).2
        linarith
      have hfl : ((⌊y⌋₊ : Nat) : ℚ) ≤ y := Nat.floor_le hy0
      calc ((⌊y⌋₊ : Nat) : ℚ) ≤ y := hfl
        _ ≤ pool * d * (1 + u) := hyle'
        _ ≤ pool * r * (1 + u) * (1 + u) := mul_le_mul_of_nonneg_right hzle' (by linarith)
        _ = pool * r * (1 + u) ^ 2 := by ring
  · by_cases hx : pool * r < 1 / 2
    · have h1 : (1 - u) ^ 2 ≤ 1 := by nlinarith
      have h2 : pool * r * (1 - u) ^ 2 ≤ pool * r * 1 := mul_le_mul_of_nonneg_left h1 hx0
      have h3 : (0 : ℚ) ≤ ((⌊y⌋₊ : Nat) : ℚ) := Nat.cast_nonneg _
      linarith
    · have hx' : 1 / 2 ≤ pool * r := not_lt.mp hx
      have hrm : m ≤ r := by
        have : 1 / 2 ≤ 2097152 * r := le_trans hx' (mul_le_mul_of_nonneg_right hpool2 hr0)
        linarith
      have hdge : r * (1 - u) ≤ d := by
        have := (abs_le.mp (hdn hrm)).1
        linarith
      have hzge : pool * r * (1 - u) ≤ pool * d := by
        rw [mul_assoc]
        exact mul_le_mul_of_nonneg_left hdge (by linarith)
      have hzm : m ≤ pool * d := by
        have h1 : 1 / 2 * (1 - u) ≤ pool * r * (1 - u) :=
          mul_le_mul_of_nonneg_right hx' (by linarith)
        nlinarith
      have hyge : pool * d * (1 - u) ≤ y := by
        have := (abs_le.mp (hyn hzm)).1
        linarith
      have hlt : y < ((⌊y⌋₊ : Nat) : ℚ) + 1 := Nat.lt_floor_add_one y
      have h4 : pool * r * (1 - u) * (1 - u) ≤ pool * d * (1 - u) :=
        mul_le_mul_of_nonneg_right hzge (by linarith)
      have h5 : pool * r * (1 - u) ^ 2 = pool * r * (1 - u) * (1 - u) := by ring
      linarith

/-- The share of the airdrop that `int64(pool * (p / t))` computes in `float64` arithmetic
for `0 ≤ p ≤ t`: a natural number within two relative round-offs above, and less than one
below, the exact share `pool * p / t`. -/
theorem share_bounds (pool p t : ℚ) (hpool1 : 1 ≤ pool) (hpool2 : pool ≤ 2097152)
    (hp : 0 ≤ p) (ht : 0 < t) (hpt : p ≤ t) :
    ∃ B : Nat, ((fin pool).mul ((fin p).div (fin t))).toInt64 = (B : Int)
      ∧ (B : ℚ) ≤ pool * (p / t) * (1 + pow2 (-53)) ^ 2
      ∧ pool * (p / t) * (1 - pow2 (-53)) ^ 2 - 1 ≤ (B : ℚ) := by
  have hr0 : 0 ≤ p / t := div_nonneg hp (le_of_lt ht)
  have hr1 : p / t ≤ 1 := (div_le_one ht).mpr hpt
  have hd0 : 0 ≤ roundMag (p / t) := roundMag_nonneg _
  have hz0 : 0 ≤ pool * roundMag (p / t) := mul_nonneg (by linarith) hd0
  obtain ⟨hd2, hy2, hup, hlo⟩ := share_arith pool (p / t) (roundMag (p / t))
    (roundMag (pool * roundMag (p / t))) (pow2 (-53)) (pow2 (-1022)) (pow2_pos _)
    (le_of_eq pow2_neg53) (pow2_pos _) pow2_neg1022_le hpool1 hpool2 hr0 hr1 hd0
    (roundMag_le _ hr0) (roundMag_normal _) (roundMag_nonneg _) (roundMag_le _ hz0)
    (roundMag_normal _)
  have hbig := pow2_1024_ge
  have hdiv : (fin p).div (fin t) = fin (roundMag (p / t)) := by
    rw [div_fin_fin p t hp ht]
    exact round_false_eq _ (by linarith)
  have hmul : (fin pool).mul (fin (roundMag (p / t)))
      = fin (roundMag (pool * roundMag (p / t))) := by
    rw [mul_fin_fin pool _ (by linarith) hd0]
    exact round_false_eq _ (by linarith)
  refine ⟨⌊roundMag (pool * roundMag (p / t))⌋₊, ?_, hup, hlo⟩
  rw [hdiv, hmul]
  exact toInt64_fin _ (roundMag_nonneg _) hy2

end Float64

namespace handlers

open models

theorem totalAirdropPoints_eq (seasonId : Nat) :
    totalAirdropPoints seasonId = .fin (if seasonId = 0 then 1000000 else 1250000) := by
  unfold totalAirdropPoints
  split
  · exact Float64.ofNat_pool_first
  · exact Float64.ofNat_pool_later

theorem closedSeasonVault_balance (seasonId : Nat) (start : Int) (t : ℚ) (ht : 0 < t) (i : Nat)
    (v : Vault) :
    (closedSeasonVault seasonId start (.fin t) i v).1.Balance
      = (((Float64.fin (if seasonId = 0 then 1000000 else 1250000)).mul
          (v.TotalPoints.div (.fin t)))).toInt64 := by
  have hlt : Float64.lt (.fin 0) (.fin t) = true := by
    simp [Float64.lt, Float64.val, ht]
  unfold closedSeasonVault
  simp only [hlt, if_true, totalAirdropPoints_eq]

theorem share_sum_bounds (pool t : ℚ) (hpool1 : 1 ≤ pool) (hpool2 : pool ≤ 2097152)
    (ht : 0 < t) (vaults : List Vault)
    (hpoints : ∀ v ∈ vaults, ∃ p, v.TotalPoints = .fin p ∧ 0 ≤ p ∧ p ≤ t) :
    ∃ bs : List Nat,
      vaults.map (fun v => ((Float64.fin pool).mul (v.TotalPoints.div (.fin t))).toInt64)
          = bs.map Int.ofNat
        ∧ (∀ b ∈ bs, (b : ℚ) ≤ pool * (1 + Float64.pow2 (-53)) ^ 2)
        ∧ ((bs.sum : Nat) : ℚ) ≤ pool * ((vaults.map (fun v => v.TotalPoints.val)).sum / t)
              * (1 + Float64.pow2 (-53)) ^ 2
        ∧ pool * ((vaults.map (fun v => v.TotalPoints.val)).sum / t)
              * (1 - Float64.pow2 (-53)) ^ 2 - (vaults.length : ℚ) ≤ ((bs.sum : Nat) : ℚ) := by
  induction vaults with
  | nil => exact ⟨[], rfl, by simp, by simp, by simp⟩
  | cons v rest ih =>
    obtain ⟨bs, hbs, hall, hup, hlo⟩ := ih (fun x hx => hpoints x (List.mem_cons_of_mem _ hx))
    obtain ⟨p, hp, hp0, hpt⟩ := hpoints v (List.mem_cons_self _ _)
    obtain ⟨B, hB, hBup, hBlo⟩ := Float64.share_bounds pool p t hpool1 hpool2 hp0 ht hpt
    have hval : v.TotalPoints.val = p := by rw [hp]; rfl
    refine ⟨B :: bs, ?_, ?_, ?_, ?_⟩
    · rw [List.map_cons, List.map_cons, hbs, hp, hB]
      rfl
    · intro b hb
      rcases List.mem_cons.mp hb with rfl | hb
      · refine le_trans hBup ?_
        have h1 : p / t ≤ 1 := (div_le_one ht).mpr hpt
        have h2 : (0 : ℚ) ≤ (1 + Float64.pow2 (-53)) ^ 2 := sq_nonneg _
        have h3 : pool * (p / t) ≤ pool * 1 := mul_le_mul_of_nonneg_left h1 (by linarith)
        rw [mul_one] at h3
        exact mul_le_mul_of_nonneg_right h3 h2
      · exact hall b hb
    · rw [List.map_cons, List.sum_cons, List.sum_cons, hval, Nat.cast_add, add_div, mul_add,
        add_mul]
      linarith
    · rw [List.map_cons, List.sum_cons, List.sum_cons, hval, Nat.cast_add, add_div, mul_add,
        add_mul, List.length_cons, Nat.cast_add, Nat.cast_one]
      linarith

/-- The balances that the closed-season loop computes for a leaderboard whose points are
finite, not negative and at most the total `t`: natural numbers, whose sum is within two
relative round-offs above, and less than one for each vault below, the exact share of the
points of the list. -/
theorem closedSeasonLoop_balances (seasonId : Nat) (t : ℚ) (ht : 0 < t) (vaults : List Vault)
    (hpoints : ∀ v ∈ vaults, ∃ p, v.TotalPoints = .fin p ∧ 0 ≤ p ∧ p ≤ t) :
    ∃ bs : List Nat,
      ((closedSeasonLoop seasonId 0 (.fin t) 0 vaults).1.map rankResponse).map
          (fun entry => entry.Balance) = bs.map Int.ofNat
        ∧ (∀ b ∈ bs, (b : ℚ) ≤ (if seasonId = 0 then 1000000 else 1250000)
              * (1 + Float64.pow2 (-53)) ^ 2)
        ∧ ((bs.sum : Nat) : ℚ) ≤ (if seasonId = 0 then 1000000 else 1250000)
              * ((vaults.map (fun v => v.TotalPoints.val)).sum / t)
              * (1 + Float64.pow2 (-53)) ^ 2
        ∧ (if seasonId = 0 then 1000000 else 1250000)
              * ((vaults.map (fun v => v.TotalPoints.val)).sum / t)
              * (1 - Float64.pow2 (-53)) ^ 2 - (vaults.length : ℚ) ≤ ((bs.sum : Nat) : ℚ) := by
  have hpool1 : (1 : ℚ) ≤ (if seasonId = 0 then 1000000 else 1250000) := by
    split <;> norm_num
  have hpool2 : ((if seasonId = 0 then 1000000 else 1250000) : ℚ) ≤ 2097152 := by
    split <;> norm_num
  have hmap : ((closedSeasonLoop seasonId 0 (.fin t) 0 vaults).1.map rankResponse).map
      (fun entry => entry.Balance)
        = vaults.map (fun v => ((Float64.fin (if seasonId = 0 then 1000000 else 1250000)).mul
            (v.TotalPoints.div (.fin t))).toInt64) := by
    apply List.ext_getElem?
    intro i
    simp only [List.getElem?_map, closedSeasonLoop_getElem?]
    cases vaults[i]? with
    | none => simp only [Option.map_none']
    | some v =>
      simp only [Option.map_some', rankResponse, closedSeasonVault_balance seasonId 0 t ht]
  rw [hmap]
  exact share_sum_bounds _ t hpool1 hpool2 ht vaults hpoints

theorem sum_bounds_arith (P : Nat) (S n : Nat) (u : ℚ) (hu0 : 0 < u)
    (hu : u ≤ 1 / 9007199254740992) (hP : P ≤ 2097152)
    (hup : (S : ℚ) ≤ (P : ℚ) * 1 * (1 + u) ^ 2)
    (hlo : (P : ℚ) * 1 * (1 - u) ^ 2 - (n : ℚ) ≤ (S : ℚ)) :
    (S : Int) ≤ (P : Int) ∧ (P : Int) - (n : Int) ≤ (S : Int) := by
  have hPq : (P : ℚ) ≤ 2097152 := by exact_mod_cast hP
  have hP0 : (0 : ℚ) ≤ (P : ℚ) := Nat.cast_nonneg _
  have hPu : (P : ℚ) * u ≤ 2097152 * (1 / 9007199254740992) :=
    mul_le_mul hPq hu (le_of_lt hu0) (by norm_num)
  norm_num at hPu
  have hsq1 : (1 + u) ^ 2 ≤ 1 + 3 * u := by nlinarith
  have hsq2 : 1 - 2 * u ≤ (1 - u) ^ 2 := by nlinarith
  have h1 : (P : ℚ) * 1 * (1 + u) ^ 2 < (P : ℚ) + 1 := by
    have := mul_le_mul_of_nonneg_left hsq1 hP0
    linarith
  have h2 : (P : ℚ) - 1 < (P : ℚ) * 1 * (1 - u) ^ 2 := by
    have := mul_le_mul_of_nonneg_left hsq2 hP0
    linarith
  have h3 : (S : ℚ) < ((P + 1 : Nat) : ℚ) := by push_cast; linarith
  have h4 : ((P : Nat) : ℚ) < ((S + n + 1 : Nat) : ℚ) := by push_cast; linarith
  have h5 : S < P + 1 := by exact_mod_cast h3
  have h6 : P < S + n + 1 := by exact_mod_cast h4
  omega

/-- The pages of `getVaultsByRankHandler` over a store that serves consecutive slices of the
leaderboard `all` of a closed season, put end to end, are the start of the single pass of
the closed-season loop over `all`. -/
theorem getVaultsByRankHandler_pages (cur : Nat) (s : Store) (ctx : Nat → Context)
    (limit : Int) (seasonId : Nat) (count balance lp nft : Int) (total : Float64)
    (all : List Vault) (K : Nat) (hlimit1 : 1 ≤ limit)
    (hfrom : ∀ k, k < K → strconv.ParseInt ((ctx k).DefaultQuery "from" "0")
        = some ((k * (min limit 100).toNat : Nat) : Int))
    (hlimit : ∀ k, k < K → strconv.Atoi ((ctx k).DefaultQuery "limit" "10") = some limit)
    (hseason : ∀ k, k < K →
      strconv.ParseUint ((ctx k).DefaultQuery "season" "0") = some seasonId)
    (hclosed : seasonId ≠ cur)
    (hcount : s.GetLeaderVaultCountBySeason seasonId = .ok count)
    (hbalance : s.GetLeaderVaultTotalBalanceBySeason seasonId = .ok balance)
    (hlp : s.GetLeaderVaultTotalLPBySeason seasonId = .ok lp)
    (hnft : s.GetLeaderVaultTotalNFTBySeason seasonId = .ok nft)
    (htotal : s.GetLeaderVaultTotalPointsBySeason seasonId = .ok total)
    (hslices : ∀ f l : Nat, s.GetLeaderVaultsBySeason seasonId (f : Int) (l : Int)
        = ((all.drop f).take l, none)) :
    ∃ resp : Nat → VaultsResponse,
      (∀ k, k < K → (getVaultsByRankHandler cur s (ctx k)).result = .ok (resp k))
        ∧ ((List.range K).map (fun k => (resp k).Vaults)).flatten
            = ((closedSeasonLoop seasonId 0 total 0 all).1.map rankResponse).take
                (K * (min limit 100).toNat) := by
  have hL : ((min limit 100).toNat : Int) = min limit 100 := Int.toNat_of_nonneg (by omega)
  refine ⟨fun k =>
      { Vaults := (((closedSeasonLoop seasonId 0 total 0 all).1.map rankResponse).drop
          (k * (min limit 100).toNat)).take (min limit 100).toNat
        TotalVaultCount := count, TotalBalance := balance, TotalLP := lp, TotalNFT := nft },
    ?_, flatten_pages _ _ K⟩
  intro k hk
  have hf := hslices (k * (min limit 100).toNat) (min limit 100).toNat
  rw [hL] at hf
  have hrun := getVaultsByRankHandler_closed cur s (ctx k) _ limit seasonId count balance lp
    nft total _ (hfrom k hk) (hlimit k hk) (hseason k hk) hclosed hcount hbalance hlp hnft
    htotal hf
  rw [hrun]
  simp only [closedSeasonLoop_page, List.map_take, List.map_drop]

end handlers

namespace handlers

open models

theorem sum_map_ofNat (bs : List Nat) : (bs.map Int.ofNat).sum = ((bs.sum : Nat) : Int) := by
  induction bs with
  | nil => rfl
  | cons b bs ih =>
    rw [List.map_cons, List.sum_cons, List.sum_cons, ih]
    push_cast
    rfl

/-- C4, counterexample: the closed season 0 of three vaults with one point each, total 3 (the
sum of the points, and positive): the reported balances are 333,333 each, and their sum is
999,999, not the pool of 1,000,000. -/
theorem C4_counterexample_truncated_shares :
    sample.threeVaults.GetLeaderVaultTotalPointsBySeason 0 = .ok (.fin 3)
      ∧ ((sample.season 3).map (fun v => v.TotalPoints.val)).sum = 3
      ∧ Float64.lt (.fin 0) (.fin 3) = true
      ∧ (getVaultsByRankHandler 1 sample.threeVaults
            (sample.request [("season", "0")] [])).result.toOption.map
          (fun resp => resp.Vaults.map (fun entry => entry.Balance))
            = some [333333, 333333, 333333]
      ∧ ([333333, 333333, 333333] : List Int).sum ≠ 1000000 := by
  refine ⟨rfl, by decide!, by decide!, by decide!, by decide⟩

/-- C4, amended: over a store that serves consecutive slices of the leaderboard `all` of a
closed season, whose points are finite and not negative and add up exactly to
`totalSeasonPoints > 0`, the pages of `getVaultsByRankHandler` that cover the leaderboard
report a `Balance` for every vault, each between 0 and the pool of the season, and the sum
of the balances is at most the pool (1,000,000 for season 0, 1,250,000 otherwise) and at
least the pool minus the number of vaults: `int64(...)` cuts less than one token off the
share of each vault. -/
theorem C4_allocations_sum_within_truncation (cur : Nat) (s : Store) (ctx : Nat → Context)
    (limit : Int) (seasonId : Nat) (count balance lp nft : Int) (t : ℚ)
    (all : List Vault) (K : Nat) (hlimit1 : 1 ≤ limit)
    (hcover : all.length ≤ K * (min limit 100).toNat)
    (hfrom : ∀ k, k < K → strconv.ParseInt ((ctx k).DefaultQuery "from" "0")
        = some ((k * (min limit 100).toNat : Nat) : Int))
    (hlimit : ∀ k, k < K → strconv.Atoi ((ctx k).DefaultQuery "limit" "10") = some limit)
    (hseason : ∀ k, k < K →
      strconv.ParseUint ((ctx k).DefaultQuery "season" "0") = some seasonId)
    (hclosed : seasonId ≠ cur)
    (hcount : s.GetLeaderVaultCountBySeason seasonId = .ok count)
    (hbalance : s.GetLeaderVaultTotalBalanceBySeason seasonId = .ok balance)
    (hlp : s.GetLeaderVaultTotalLPBySeason seasonId = .ok lp)
    (hnft : s.GetLeaderVaultTotalNFTBySeason seasonId = .ok nft)
    (htotal : s.GetLeaderVaultTotalPointsBySeason seasonId = .ok (.fin t))
    (hslices : ∀ f l : Nat, s.GetLeaderVaultsBySeason seasonId (f : Int) (l : Int)
        = ((all.drop f).take l, none))
    (hpoints : ∀ v ∈ all, ∃ p, v.TotalPoints = .fin p ∧ 0 ≤ p)
    (hsum : (all.map (fun v => v.TotalPoints.val)).sum = t) (hpos : 0 < t) :
    ∃ resp : Nat → VaultsResponse,
      (∀ k, k < K → (getVaultsByRankHandler cur s (ctx k)).result = .ok (resp k))
        ∧ ((((List.range K).map (fun k => (resp k).Vaults)).flatten).map
            (fun entry => entry.Balance)).length = all.length
        ∧ (∀ b ∈ (((List.range K).map (fun k => (resp k).Vaults)).flatten).map
              (fun entry => entry.Balance),
            0 ≤ b ∧ b ≤ (if seasonId = 0 then 1000000 else 1250000))
        ∧ ((((List.range K).map (fun k => (resp k).Vaults)).flatten).map
            (fun entry => entry.Balance)).sum ≤ (if seasonId = 0 then 1000000 else 1250000)
        ∧ (if seasonId = 0 then 1000000 else 1250000) - (all.length : Int)
            ≤ ((((List.range K).map (fun k => (resp k).Vaults)).flatten).map
                (fun entry => entry.Balance)).sum := by
  obtain ⟨resp, hresp, hflat⟩ := getVaultsByRankHandler_pages cur s ctx limit seasonId count
    balance lp nft (.fin t) all K hlimit1 hfrom hlimit hseason hclosed hcount hbalance hlp hnft
    htotal hslices
  have hlen : ((closedSeasonLoop seasonId 0 (.fin t) 0 all).1.map rankResponse).length
      = all.length := by
    rw [List.length_map, closedSeasonLoop_length]
  rw [List.take_of_length_le (by rw [hlen]; exact hcover)] at hflat
  have hnonneg : ∀ x ∈ all.map (fun v => v.TotalPoints.val), 0 ≤ x := by
    intro x hx
    obtain ⟨v, hv, rfl⟩ := List.mem_map.mp hx
    obtain ⟨p, hp, hp0⟩ := hpoints v hv
    rw [hp]
    exact hp0
  have hpoints' : ∀ v ∈ all, ∃ p, v.TotalPoints = .fin p ∧ 0 ≤ p ∧ p ≤ t := by
    intro v hv
    obtain ⟨p, hp, hp0⟩ := hpoints v hv
    refine ⟨p, hp, hp0, ?_⟩
    have hmem : v.TotalPoints.val ∈ all.map (fun v => v.TotalPoints.val) :=
      List.mem_map_of_mem _ hv
    have := List.single_le_sum hnonneg _ hmem
    rw [hsum, hp] at this
    exact this
  obtain ⟨bs, hbs, hall, hup, hlo⟩ := closedSeasonLoop_balances seasonId t hpos all hpoints'
  rw [hsum, div_self (ne_of_gt hpos)] at hup hlo
  have hu0 := Float64.pow2_pos (-53)
  have hu := le_of_eq Float64.pow2_neg53
  have hbslen : bs.length = all.length := by
    have := congrArg List.length hbs
    simp only [List.length_map, closedSeasonLoop_length] at this
    exact this.symm
  refine ⟨resp, hresp, ?_, ?_, ?_, ?_⟩
  · rw [hflat, List.length_map, hlen]
  · intro b hb
    rw [hflat, hbs] at hb
    obtain ⟨n, hn, rfl⟩ := List.mem_map.mp hb
    have hn' := hall n hn
    refine ⟨Int.ofNat_nonneg n, ?_⟩
    by_cases h0 : seasonId = 0
    · simp only [h0, if_true] at hn' ⊢
      have h1 : ((n : Nat) : ℚ) ≤ ((1000000 : Nat) : ℚ) * 1 * (1 + Float64.pow2 (-53)) ^ 2 := by
        push_cast
        linarith
      have h2 : ((1000000 : Nat) : ℚ) * 1 * (1 - Float64.pow2 (-53)) ^ 2 - ((1000000 : Nat) : ℚ)
          ≤ ((n : Nat) : ℚ) := by
        have h3 : (1 - Float64.pow2 (-53)) ^ 2 ≤ 1 := by nlinarith
        have h4 : (0 : ℚ) ≤ ((n : Nat) : ℚ) := Nat.cast_nonneg _
        push_cast
        linarith
      exact (sum_bounds_arith 1000000 n 1000000 _ hu0 hu (by norm_num) h1 h2).1
    · simp only [h0, if_false] at hn' ⊢
      have h1 : ((n : Nat) : ℚ) ≤ ((1250000 : Nat) : ℚ) * 1 * (1 + Float64.pow2 (-53)) ^ 2 := by
        push_cast
        linarith
      have h2 : ((1250000 : Nat) : ℚ) * 1 * (1 - Float64.pow2 (-53)) ^ 2 - ((1250000 : Nat) : ℚ)
          ≤ ((n : Nat) : ℚ) := by
        have h3 : (1 - Float64.pow2 (-53)) ^ 2 ≤ 1 := by nlinarith
        have h4 : (0 : ℚ) ≤ ((n : Nat) : ℚ) := Nat.cast_nonneg _
        push_cast
        linarith
      exact (sum_bounds_arith 1250000 n 1250000 _ hu0 hu (by norm_num) h1 h2).1
  · rw [hflat, hbs, sum_map_ofNat]
    by_cases h0 : seasonId = 0
    · simp only [h0, if_true] at hup hlo ⊢
      rw [← hbslen] at hlo
      exact (sum_bounds_arith 1000000 bs.sum bs.length _ hu0 hu (by norm_num)
        (by rw [Nat.cast_ofNat]; exact hup) (by rw [Nat.cast_ofNat]; exact hlo)).1
    · simp only [h0, if_false] at hup hlo ⊢
      rw [← hbslen] at hlo
      exact (sum_bounds_arith 1250000 bs.sum bs.length _ hu0 hu (by norm_num)
        (by rw [Nat.cast_ofNat]; exact hup) (by rw [Nat.cast_ofNat]; exact hlo)).1
  · rw [hflat, hbs, sum_map_ofNat, ← hbslen]
    by_cases h0 : seasonId = 0
    · simp only [h0, if_true] at hup hlo ⊢
      rw [← hbslen] at hlo
      exact (sum_bounds_arith 1000000 bs.sum bs.length _ hu0 hu (by norm_num)
        (by rw [Nat.cast_ofNat]; exact hup) (by rw [Nat.cast_ofNat]; exact hlo)).2
    · simp only [h0, if_false] at hup hlo ⊢
      rw [← hbslen] at hlo
      exact (sum_bounds_arith 1250000 bs.sum bs.length _ hu0 hu (by norm_num)
        (by rw [Nat.cast_ofNat]; exact hup) (by rw [Nat.cast_ofNat]; exact hlo)).2

/-- Witness of C4 (amended): the closed season 0 of `sample.twoVaults`, 300 and 700 points
of a total of 1000, fetched as one page of 10; the balances are 300,000 and 700,000. -/
theorem C4_allocations_sum_within_truncation_witness :
    (∃ resp : Nat → VaultsResponse,
        (getVaultsByRankHandler 1 sample.twoVaults
            (sample.request [("season", "0")] [])).result = .ok (resp 0)
          ∧ ((((List.range 1).map (fun k => (resp k).Vaults)).flatten).map
              (fun entry => entry.Balance)).sum ≤ 1000000
          ∧ 1000000 - 2 ≤ ((((List.range 1).map (fun k => (resp k).Vaults)).flatten).map
              (fun entry => entry.Balance)).sum)
      ∧ (getVaultsByRankHandler 1 sample.twoVaults
            (sample.request [("season", "0")] [])).result.toOption.map
          (fun resp => resp.Vaults.map (fun entry => entry.Balance))
            = some [300000, 700000] := by
  have hfrom : ∀ k, k < 1 →
      strconv.ParseInt ((sample.request [("season", "0")] []).DefaultQuery "from" "0")
        = some ((k * (min (10 : Int) 100).toNat : Nat) : Int) := by
    intro k hk
    obtain rfl : k = 0 := by omega
    decide
  have hlimit : strconv.Atoi
      ((sample.request [("season", "0")] []).DefaultQuery "limit" "10") = some 10 := by decide
  have hseason : strconv.ParseUint
      ((sample.request [("season", "0")] []).DefaultQuery "season" "0") = some 0 := by decide
  have hpoints : ∀ v ∈ [sample.vault 1 "a" "uid-a" (.fin 300) 0,
      sample.vault 2 "b" "uid-b" (.fin 700) 0], ∃ p, v.TotalPoints = .fin p ∧ 0 ≤ p := by
    intro v hv
    simp only [List.mem_cons, List.mem_singleton, List.not_mem_nil, or_false] at hv
    rcases hv with rfl | rfl
    · exact ⟨300, rfl, by norm_num⟩
    · exact ⟨700, rfl, by norm_num⟩
  have hsum : ([sample.vault 1 "a" "uid-a" (.fin 300) 0,
      sample.vault 2 "b" "uid-b" (.fin 700) 0].map (fun v => v.TotalPoints.val)).sum = 1000 := by
    simp only [List.map_cons, List.map_nil, List.sum_cons, List.sum_nil, sample.vault,
      Float64.val]
    norm_num
  obtain ⟨resp, h1, -, -, h4, h5⟩ := C4_allocations_sum_within_truncation 1 sample.twoVaults
    (fun _ => sample.request [("season", "0")] []) 10 0 2 0 0 0 1000
    [sample.vault 1 "a" "uid-a" (.fin 300) 0, sample.vault 2 "b" "uid-b" (.fin 700) 0] 1
    (by decide) (by decide) hfrom (fun _ _ => hlimit) (fun _ _ => hseason) (by decide)
    rfl rfl rfl rfl rfl
    (fun f l => by simp [sample.twoVaults, sample.store, sample.page])
    hpoints hsum (by norm_num)
  exact ⟨⟨resp, h1 0 (by omega), by simpa using h4, by simpa using h5⟩, by decide!⟩

end handlers

namespace common

theorem chainDerivePath_keys_named : ∀ p ∈ chainDerivePath, p.1 ∈ namedChains := by decide

theorem chainDerivePath_lookup_named :
    ∀ c ∈ namedChains, (chainDerivePath.lookup c).isSome = true := by decide

theorem chainToString_lookup_named :
    ∀ c ∈ namedChains, (chainToString.lookup c).isSome = true := by decide

theorem eddsa_iff_empty_path_of_named :
    ∀ c ∈ namedChains,
      (c.IsEdDSA = true ↔ c.GetDerivePath = gostr "")
        ∧ (c.IsEdDSA = true ↔ c ∈ [Solana, Sui, Polkadot, Ton]) := by decide

theorem derivePath_lookup_none_of_not_named (c : Chain) (h : c ∉ namedChains) :
    chainDerivePath.lookup c = none := by
  rw [List.lookup_eq_none_iff]
  intro p hp
  simp only [bne_iff_ne, ne_eq]
  intro hcp
  exact h (hcp ▸ chainDerivePath_keys_named p hp)

theorem not_eddsa_of_not_named (c : Chain) (h : c ∉ namedChains) : c.IsEdDSA = false := by
  unfold Chain.IsEdDSA
  rw [if_neg]
  rintro (rfl | rfl | rfl | rfl) <;> exact h (by decide)

/-- C13: the tables of the chain registry agree: a `Chain` value has a display name in
`chainToString` exactly when it has an entry in `chainDerivePath`, and these are the 32 named
constants; for a named chain `IsEdDSA` is true exactly when `GetDerivePath` is the empty
string, which is the case for `Solana`, `Sui`, `Polkadot` and `Ton` and for no other; for an
unnamed value `IsEdDSA` is false and `GetDerivePath` is `""`. -/
theorem C13_chain_tables_agree (c : Chain) :
    ((chainToString.lookup c).isSome = true ↔ (chainDerivePath.lookup c).isSome = true)
      ∧ ((chainToString.lookup c).isSome = true ↔ c ∈ namedChains)
      ∧ (c ∈ namedChains →
          (c.IsEdDSA = true ↔ c.GetDerivePath = gostr "")
            ∧ (c.IsEdDSA = true ↔ c ∈ [Solana, Sui, Polkadot, Ton]))
      ∧ (c ∉ namedChains → c.IsEdDSA = false ∧ c.GetDerivePath = gostr "") := by
  by_cases hc : c ∈ namedChains
  · have h1 := chainToString_lookup_named c hc
    have h2 := chainDerivePath_lookup_named c hc
    refine ⟨by rw [h1, h2], by rw [h1]; exact ⟨fun _ => hc, fun _ => rfl⟩,
      fun _ => eddsa_iff_empty_path_of_named c hc, fun h => absurd hc h⟩
  · have h1 := lookup_none_of_not_named c hc
    have h2 := derivePath_lookup_none_of_not_named c hc
    refine ⟨by rw [h1, h2], by rw [h1]; exact ⟨fun h => (by cases h), fun h => absurd h hc⟩,
      fun h => absurd h hc, fun _ => ⟨not_eddsa_of_not_named c hc, ?_⟩⟩
    simp only [Chain.GetDerivePath, h2]

end common

namespace common

theorem rangeFind_none (order : List (Chain × GoString)) (h : order.Perm chainToString)
    (s : GoString) (hs : s ∉ chainToString.map Prod.snd) : rangeFind order s = none := by
  unfold rangeFind
  have hf : order.find? (fun kv => kv.2 == s) = none := by
    rw [List.find?_eq_none]
    intro kv hkv hp
    simp only [beq_iff_eq] at hp
    exact hs (hp ▸ List.mem_map_of_mem Prod.snd (h.mem_iff.mp hkv))
  rw [hf]
  rfl

/-- C11, the code at the failing input: for a string `s` that is no display name (as
`"UNKNOWN"` and `""` are not), under every iteration order of the map, `UnmarshalJSON` of the
JSON string `s` and `Scan` of the bytes of `s` return no error and leave the receiver as it
was; a receiver that held `Bitcoin` holds `Bitcoin` afterwards, not `Undefined`, the value
whose `String` is `"UNKNOWN"`. -/
theorem C11_unknown_name_leaves_receiver_unchanged :
    (∀ (json : JSONString) (order₁ order₂ : List (Chain × GoString)) (s : GoString)
        (prev : Chain),
        order₁.Perm chainToString → order₂.Perm chainToString →
        s ∉ chainToString.map Prod.snd →
        json.Unmarshal (json.Marshal s).1 = .ok s →
        Chain.UnmarshalJSON json order₁ prev (json.Marshal s).1 = (prev, none)
          ∧ Chain.Scan order₂ prev (.bytes s) = (prev, none))
      ∧ gostr "UNKNOWN" ∉ chainToString.map Prod.snd
      ∧ gostr "" ∉ chainToString.map Prod.snd
      ∧ Chain.UnmarshalJSON quotedJSON chainToString Bitcoin
          (quotedJSON.Marshal (gostr "UNKNOWN")).1 = (Bitcoin, none)
      ∧ Chain.Scan chainToString Bitcoin (.bytes (gostr "UNKNOWN")) = (Bitcoin, none)
      ∧ Bitcoin ≠ Undefined
      ∧ Bitcoin.String ≠ gostr "UNKNOWN"
      ∧ Undefined.String = gostr "UNKNOWN" := by
  refine ⟨?_, by decide, by decide, by decide, by decide, by decide, by decide, by decide⟩
  intro json order₁ order₂ s prev h₁ h₂ hs hjson
  constructor
  · simp only [Chain.UnmarshalJSON, hjson, rangeFind_none order₁ h₁ s hs]
  · simp only [Chain.Scan, rangeFind_none order₂ h₂ s hs]

end common

namespace handlers

open models

/-- The runs of `addCoin`: what holds when `AddCoin` was called, what holds when it was not,
and that it is called when every check passes. -/
theorem addCoin_runs (σ : Type) (GetAddress : Vault → common.Chain → Except GoError GoString)
    (AddCoin : σ → CoinDBModel → σ × Except GoError Nat) (s : Store) (c : Context)
    (bound : Except GoError CoinBase) (st : σ) :
    (∀ coinDB, (addCoin GetAddress AddCoin s c bound st).added = some coinDB →
        c.Header "x-hex-chain-code" ≠ []
          ∧ ∃ coin vault addr,
              bound = .ok coin
                ∧ s.GetVault (c.Param "ecdsaPublicKey") (c.Param "eddsaPublicKey") = .ok vault
                ∧ c.Header "x-hex-chain-code" = vault.HexChainCode
                ∧ GetAddress vault coin.Chain = .ok addr
                ∧ coin.Address = addr
                ∧ coinDB = { ID := 0, VaultID := vault.ID, Chain := coin.Chain,
                             Address := coin.Address, HexPublicKey := coin.HexPublicKey }
                ∧ (addCoin GetAddress AddCoin s c bound st).store = (AddCoin st coinDB).1)
      ∧ ((addCoin GetAddress AddCoin s c bound st).added = none →
          (addCoin GetAddress AddCoin s c bound st).store = st
            ∧ ∃ e, (addCoin GetAddress AddCoin s c bound st).result = .error e)
      ∧ (∀ coin vault addr,
          bound = .ok coin →
          c.Header "x-hex-chain-code" ≠ [] →
          s.GetVault (c.Param "ecdsaPublicKey") (c.Param "eddsaPublicKey") = .ok vault →
          c.Header "x-hex-chain-code" = vault.HexChainCode →
          GetAddress vault coin.Chain = .ok addr →
          coin.Address = addr →
          (addCoin GetAddress AddCoin s c bound st).added
            = some { ID := 0, VaultID := vault.ID, Chain := coin.Chain,
                     Address := coin.Address, HexPublicKey := coin.HexPublicKey }) := by
  cases bound with
  | error e =>
    refine ⟨?_, ?_, ?_⟩
    · intro coinDB h
      simp [addCoin] at h
    · intro _
      exact ⟨rfl, _, rfl⟩
    · intro coin vault addr h
      cases h
  | ok coin =>
    by_cases hh : c.Header "x-hex-chain-code" = []
    · refine ⟨?_, ?_, ?_⟩
      · intro coinDB h
        simp [addCoin, hh] at h
      · intro _
        simp [addCoin, hh]
      · intro coin' vault addr _ hne
        exact absurd hh hne
    · cases hv : s.GetVault (c.Param "ecdsaPublicKey") (c.Param "eddsaPublicKey") with
      | error e =>
        refine ⟨?_, ?_, ?_⟩
        · intro coinDB h
          simp [addCoin, hh, hv] at h
        · intro _
          simp [addCoin, hh, hv]
        · intro coin' vault addr _ _ h
          cases h
      | ok vault =>
        by_cases hc : vault.HexChainCode = c.Header "x-hex-chain-code"
        · cases ha : GetAddress vault coin.Chain with
          | error e =>
            refine ⟨?_, ?_, ?_⟩
            · intro coinDB h
              simp [addCoin, hh, hv, hc, ha] at h
            · intro _
              simp [addCoin, hh, hv, hc, ha]
            · intro coin' vault' addr hb _ hv' _ ha'
              cases hb
              cases hv'
              rw [ha] at ha'
              cases ha'
          | ok addr =>
            by_cases hm : coin.Address = addr
            · refine ⟨?_, ?_, ?_⟩
              · intro coinDB h
                refine ⟨hh, coin, vault, addr, rfl, rfl, hc.symm, ha, hm, ?_⟩
                simp only [addCoin, hh, hv, hc, ha, hm, if_false, ne_eq, not_true_eq_false] at h ⊢
                split at h <;> simp_all
              · intro h
                simp only [addCoin, hh, hv, hc, ha, hm, if_false, ne_eq, not_true_eq_false] at h
                split at h <;> simp at h
              · intro coin' vault' addr' hb _ hv' _ _ _
                cases hb
                cases hv'
                simp only [addCoin, hh, hv, hc, ha, hm, if_false, ne_eq, not_true_eq_false]
                split <;> rfl
            · refine ⟨?_, ?_, ?_⟩
              · intro coinDB h
                simp [addCoin, hh, hv, hc, ha, hm] at h
              · intro _
                simp [addCoin, hh, hv, hc, ha, hm]
              · intro coin' vault' addr' hb _ hv' _ ha' hm'
                cases hb
                cases hv'
                rw [ha] at ha'
                cases ha'
                exact absurd hm' hm
        · refine ⟨?_, ?_, ?_⟩
          · intro coinDB h
            simp [addCoin, hh, hv, hc] at h
          · intro _
            simp [addCoin, hh, hv, hc]
          · intro coin' vault' addr hb _ hv' hc'
            cases hv'
            exact absurd hc'.symm hc

/-- C12: `addCoin` calls `AddCoin` on the store only if the body binds to a coin, the header
`x-hex-chain-code` is not empty, the store returns the vault of the two public keys, the
header equals the `HexChainCode` of the vault, `vault.GetAddress(coin.Chain)` succeeds and
`coin.Address` equals the derived address, and it does call it then, with the bound coin and
the `ID` of the vault. In every other case the handler reports an error, `AddCoin` is not
called and the store is in the state it was in. -/
theorem C12_addCoin_stores_only_verified_coin :
    (∀ (σ : Type) (GetAddress : Vault → common.Chain → Except GoError GoString)
        (AddCoin : σ → CoinDBModel → σ × Except GoError Nat) (s : Store) (c : Context)
        (bound : Except GoError CoinBase) (st : σ),
        (∀ coinDB, (addCoin GetAddress AddCoin s c bound st).added = some coinDB →
            c.Header "x-hex-chain-code" ≠ []
              ∧ ∃ coin vault addr,
                  bound = .ok coin
                    ∧ s.GetVault (c.Param "ecdsaPublicKey") (c.Param "eddsaPublicKey") = .ok vault
                    ∧ c.Header "x-hex-chain-code" = vault.HexChainCode
                    ∧ GetAddress vault coin.Chain = .ok addr
                    ∧ coin.Address = addr
                    ∧ coinDB = { ID := 0, VaultID := vault.ID, Chain := coin.Chain,
                                 Address := coin.Address, HexPublicKey := coin.HexPublicKey }
                    ∧ (addCoin GetAddress AddCoin s c bound st).store = (AddCoin st coinDB).1)
          ∧ ((addCoin GetAddress AddCoin s c bound st).added = none →
              (addCoin GetAddress AddCoin s c bound st).store = st
                ∧ ∃ e, (addCoin GetAddress AddCoin s c bound st).result = .error e)
          ∧ (∀ coin vault addr,
              bound = .ok coin →
              c.Header "x-hex-chain-code" ≠ [] →
              s.GetVault (c.Param "ecdsaPublicKey") (c.Param "eddsaPublicKey") = .ok vault →
              c.Header "x-hex-chain-code" = vault.HexChainCode →
              GetAddress vault coin.Chain = .ok addr →
              coin.Address = addr →
              (addCoin GetAddress AddCoin s c bound st).added
                = some { ID := 0, VaultID := vault.ID, Chain := coin.Chain,
                         Address := coin.Address, HexPublicKey := coin.HexPublicKey })
          ∧ ((¬ ∃ coin vault addr,
                bound = .ok coin
                  ∧ c.Header "x-hex-chain-code" ≠ []
                  ∧ s.GetVault (c.Param "ecdsaPublicKey") (c.Param "eddsaPublicKey") = .ok vault
                  ∧ c.Header "x-hex-chain-code" = vault.HexChainCode
                  ∧ GetAddress vault coin.Chain = .ok addr
                  ∧ coin.Address = addr) →
              (addCoin GetAddress AddCoin s c bound st).added = none
                ∧ (addCoin GetAddress AddCoin s c bound st).store = st
                ∧ ∃ e, (addCoin GetAddress AddCoin s c bound st).result = .error e))
      ∧ ((addCoin sample.deriveAddress sample.appendCoin sample.coinVaultStore
            (sample.coinRequest "a" "c0de")
            (.ok { Chain := common.Bitcoin, Address := gostr "a:Bitcoin", HexPublicKey := [] })
            []).store
          = [{ ID := 1, VaultID := 7, Chain := common.Bitcoin, Address := gostr "a:Bitcoin",
               HexPublicKey := [] }])
      ∧ ((addCoin sample.deriveAddress sample.appendCoin sample.coinVaultStore
            (sample.coinRequest "a" "c0de")
            (.ok { Chain := common.Bitcoin, Address := gostr "b:Bitcoin", HexPublicKey := [] })
            []).result = .error .errAddressNotMatch)
      ∧ ((addCoin sample.deriveAddress sample.appendCoin sample.coinVaultStore
            (sample.coinRequest "a" "beef")
            (.ok { Chain := common.Bitcoin, Address := gostr "a:Bitcoin", HexPublicKey := [] })
            []) = { store := [], added := none, result := .error .errForbiddenAccess }) := by
  refine ⟨?_, by decide!, by decide!, ?_⟩
  · intro σ GetAddress AddCoin s c bound st
    obtain ⟨h1, h2, h3⟩ := addCoin_runs σ GetAddress AddCoin s c bound st
    refine ⟨h1, h2, h3, ?_⟩
    intro hnot
    have hnone : (addCoin GetAddress AddCoin s c bound st).added = none := by
      cases hadd : (addCoin GetAddress AddCoin s c bound st).added with
      | none => rfl
      | some coinDB =>
        obtain ⟨hh, coin, vault, addr, hb, hv, hc, ha, hm, -, -⟩ := h1 coinDB hadd
        exact absurd ⟨coin, vault, addr, hb, hh, hv, hc, ha, hm⟩ hnot
    exact ⟨hnone, h2 hnone⟩
  · have hrun : (addCoin sample.deriveAddress sample.appendCoin sample.coinVaultStore
        (sample.coinRequest "a" "beef")
        (.ok { Chain := common.Bitcoin, Address := gostr "a:Bitcoin", HexPublicKey := [] })
        []).result = .error .errForbiddenAccess := by decide!
    have hstore : (addCoin sample.deriveAddress sample.appendCoin sample.coinVaultStore
        (sample.coinRequest "a" "beef")
        (.ok { Chain := common.Bitcoin, Address := gostr "a:Bitcoin", HexPublicKey := [] })
        []).store = [] := by decide!
    have hadded : (addCoin sample.deriveAddress sample.appendCoin sample.coinVaultStore
        (sample.coinRequest "a" "beef")
        (.ok { Chain := common.Bitcoin, Address := gostr "a:Bitcoin", HexPublicKey := [] })
        []).added = none := by decide!
    cases hr : addCoin sample.deriveAddress sample.appendCoin sample.coinVaultStore
        (sample.coinRequest "a" "beef")
        (.ok { Chain := common.Bitcoin, Address := gostr "a:Bitcoin", HexPublicKey := [] }) []
    rw [hr] at hrun hstore hadded
    simp only at hrun hstore hadded
    rw [hrun, hstore, hadded]

end handlers

namespace handlers

open models

/-- C5, counterexample: over a closed season of 250 vaults served in consecutive slices, the
pages `[0, limit)` and `[limit, 2 * limit)` for `limit = 150` are the requests `from=0` and
`from=150`; each is cut down to 100 vaults, so the ranks put end to end are 1..100 followed
by 151..250, not 1, 2, 3, ... -/
theorem C5_counterexample_pages_above_max_page_size :
    (getVaultsByRankHandler 1
          (sample.store [] (fun _ => sample.season 250) (fun _ => .fin 0))
          (sample.request [("from", "0"), ("limit", "150"), ("season", "0")] [])).result.toOption.map
        (fun resp => resp.Vaults.map (fun entry => entry.Rank))
          = some ((List.range 100).map (fun j => (j : Int) + 1))
      ∧ (getVaultsByRankHandler 1
          (sample.store [] (fun _ => sample.season 250) (fun _ => .fin 0))
          (sample.request [("from", "150"), ("limit", "150"), ("season", "0")] [])).result.toOption.map
        (fun resp => resp.Vaults.map (fun entry => entry.Rank))
          = some ((List.range 100).map (fun j => (j : Int) + 151))
      ∧ (List.range 100).map (fun j => (j : Int) + 1)
          ++ (List.range 100).map (fun j => (j : Int) + 151)
          ≠ (List.range 200).map (fun j => (j : Int) + 1) := by
  refine ⟨by decide!, by decide!, by decide!⟩

/-- C6, counterexample: the `Uid` `"aééééé"` has 6 characters, fewer than 10, and 11 bytes;
a vault that hides its name is shown with the first 10 bytes of it, which is not the whole
`Uid` and ends inside its last character. -/
theorem C6_counterexample_multibyte_uid :
    "aééééé".length = 6
      ∧ (gostr "aééééé").length = 11
      ∧ vaultName { sample.vault 1 "k" "aééééé" (.fin 0) 0 with ShowNameInLeaderboard := false }
          = gostr "aéééé" ++ [195]
      ∧ vaultName { sample.vault 1 "k" "aééééé" (.fin 0) 0 with ShowNameInLeaderboard := false }
          ≠ gostr "aééééé" := by
  refine ⟨by decide, by decide, by decide, by decide⟩

theorem Run.trace_call_andThen_ret {α β : Type} (c : StoreCall) (r : Except GoError α)
    (e : ApiError) (g : α → β) :
    ((Run.call c r e).andThen (fun a => Run.ret (g a))).trace = [.store c] := by
  cases r <;> simp [Run.call, Run.andThen, Run.ret]

/-- The calls of `getVaultsByVolumeHandler` when the parses and the two calls for the totals
succeed: the third call fetches the page, whether it succeeds or not. -/
theorem getVaultsByVolumeHandler_trace (s : Store) (c : Context)
    (start limit : Int) (count : Int) (volume : Float64)
    (hfrom : strconv.ParseInt (c.DefaultQuery "from" "0") = some start)
    (hlimit : strconv.Atoi (c.DefaultQuery "limit" "10") = some limit)
    (hcount : s.GetLeaderVaultCount = .ok count)
    (hvolume : s.GetLeaderVaultTotalVolume = .ok volume) :
    (getVaultsByVolumeHandler s c).trace =
      [.store .GetLeaderVaultCount, .store .GetLeaderVaultTotalVolume,
       .store (.GetSwapLeaderVaults start (min limit 100))] := by
  simp only [getVaultsByVolumeHandler, Run.bind_eq, Run.pure_eq, hfrom, hlimit,
    Run.ofOption_some, clamp_eq_min, hcount, hvolume, Run.call_ok, Run.andThen_mk_ok,
    Run.trace_call_andThen_ret]
  rfl

/-- The calls of `getVaultsByRankHandler` for the current season when the parses and the four
calls for the totals succeed: the fifth call fetches the page, whether it succeeds or not. -/
theorem getVaultsByRankHandler_current_trace (cur : Nat) (s : Store) (c : Context)
    (start limit : Int) (count balance lp nft : Int)
    (hfrom : strconv.ParseInt (c.DefaultQuery "from" "0") = some start)
    (hlimit : strconv.Atoi (c.DefaultQuery "limit" "10") = some limit)
    (hseason : strconv.ParseUint (c.DefaultQuery "season" "0") = some cur)
    (hcount : s.GetLeaderVaultCount = .ok count)
    (hbalance : s.GetLeaderVaultTotalBalance = .ok balance)
    (hlp : s.GetLeaderVaultTotalLP = .ok lp)
    (hnft : s.GetLeaderVaultTotalNFT = .ok nft) :
    (getVaultsByRankHandler cur s c).trace =
      [.store .GetLeaderVaultCount, .store .GetLeaderVaultTotalBalance,
       .store .GetLeaderVaultTotalLP, .store .GetLeaderVaultTotalNFT,
       .store (.GetLeaderVaults start (min limit 100))] := by
  simp only [getVaultsByRankHandler, Run.bind_eq, Run.pure_eq, hfrom, hlimit, hseason,
    Run.ofOption_some, clamp_eq_min, if_true, hcount, hbalance, hlp, hnft, Run.call_ok,
    Run.andThen_mk_ok, Run.trace_call_andThen_ret]
  rfl

/-- C8: `MaxPageSize` is 100 and is enforced by clamping. For a request whose `from` and
`limit` parse, `getVaultsByRankHandler` (current and closed season) and
`getVaultsByVolumeHandler` do fetch the page once the calls for the totals succeed, handing the
store the parsed `from` and `min(limit, 100)`, which is 100 for a limit above 100 and the
limit itself otherwise; the vaults the store returns for that call are all served, and no
such request is rejected as invalid. No other page call occurs in any run. -/
theorem C8_limit_clamped_to_max_page_size (cur : Nat) (s : Store) (c : Context)
    (start limit : Int)
    (hfrom : strconv.ParseInt (c.DefaultQuery "from" "0") = some start)
    (hlimit : strconv.Atoi (c.DefaultQuery "limit" "10") = some limit) :
    MaxPageSize = 100
      ∧ (100 < limit → min limit 100 = 100)
      ∧ (limit ≤ 100 → min limit 100 = limit)
      ∧ (∀ ev ∈ (getVaultsByRankHandler cur s c).trace, ∀ f l, ev.pageArgs = some (f, l) →
          l = min limit 100 ∧ (100 < limit → l = 100) ∧ (limit ≤ 100 → l = limit))
      ∧ (∀ ev ∈ (getVaultsByVolumeHandler s c).trace, ∀ f l, ev.pageArgs = some (f, l) →
          l = min limit 100 ∧ (100 < limit → l = 100) ∧ (limit ≤ 100 → l = limit))
      ∧ (getVaultsByVolumeHandler s c).result ≠ .error .errInvalidRequest
      ∧ (∀ seasonId, strconv.ParseUint (c.DefaultQuery "season" "0") = some seasonId →
          (getVaultsByRankHandler cur s c).result ≠ .error .errInvalidRequest)
      ∧ (∀ (count : Int) (volume : Float64),
          s.GetLeaderVaultCount = .ok count →
          s.GetLeaderVaultTotalVolume = .ok volume →
          (getVaultsByVolumeHandler s c).trace =
              [.store .GetLeaderVaultCount, .store .GetLeaderVaultTotalVolume,
               .store (.GetSwapLeaderVaults start (min limit 100))]
            ∧ ∀ vaults, s.GetSwapLeaderVaults start (min limit 100) = .ok vaults →
                ∃ resp, (getVaultsByVolumeHandler s c).result = .ok resp
                  ∧ resp.Vaults.length = vaults.length
                  ∧ resp.Vaults.map (fun entry => entry.TotalPoints)
                      = vaults.map (fun v => v.TotalPoints))
      ∧ (∀ (count balance lp nft : Int),
          strconv.ParseUint (c.DefaultQuery "season" "0") = some cur →
          s.GetLeaderVaultCount = .ok count →
          s.GetLeaderVaultTotalBalance = .ok balance →
          s.GetLeaderVaultTotalLP = .ok lp →
          s.GetLeaderVaultTotalNFT = .ok nft →
          (getVaultsByRankHandler cur s c).trace =
              [.store .GetLeaderVaultCount, .store .GetLeaderVaultTotalBalance,
               .store .GetLeaderVaultTotalLP, .store .GetLeaderVaultTotalNFT,
               .store (.GetLeaderVaults start (min limit 100))]
            ∧ ∀ vaults, s.GetLeaderVaults start (min limit 100) = .ok vaults →
                ∃ resp, (getVaultsByRankHandler cur s c).result = .ok resp
                  ∧ resp.Vaults.length = vaults.length
                  ∧ resp.Vaults.map (fun entry => entry.TotalPoints)
                      = vaults.map (fun v => v.TotalPoints))
      ∧ (∀ (seasonId : Nat) (count balance lp nft : Int) (total : Float64),
          strconv.ParseUint (c.DefaultQuery "season" "0") = some seasonId →
          seasonId ≠ cur →
          s.GetLeaderVaultCountBySeason seasonId = .ok count →
          s.GetLeaderVaultTotalBalanceBySeason seasonId = .ok balance →
          s.GetLeaderVaultTotalLPBySeason seasonId = .ok lp →
          s.GetLeaderVaultTotalNFTBySeason seasonId = .ok nft →
          s.GetLeaderVaultTotalPointsBySeason seasonId = .ok total →
          (getVaultsByRankHandler cur s c).trace.take 6 =
              [.store (.GetLeaderVaultCountBySeason seasonId),
               .store (.GetLeaderVaultTotalBalanceBySeason seasonId),
               .store (.GetLeaderVaultTotalLPBySeason seasonId),
               .store (.GetLeaderVaultTotalNFTBySeason seasonId),
               .store (.GetLeaderVaultTotalPointsBySeason seasonId),
               .store (.GetLeaderVaultsBySeason seasonId start (min limit 100))]
            ∧ ∀ vaults,
                s.GetLeaderVaultsBySeason seasonId start (min limit 100) = (vaults, none) →
                ∃ resp, (getVaultsByRankHandler cur s c).result = .ok resp
                  ∧ resp.Vaults.length = vaults.length
                  ∧ resp.Vaults.map (fun entry => entry.TotalPoints)
                      = vaults.map (fun v => v.TotalPoints)) := by
  refine ⟨rfl, fun h => by omega, fun h => by omega, ?_, ?_,
    getVaultsByVolumeHandler_not_invalid s c start limit hfrom hlimit,
    fun seasonId hseason =>
      getVaultsByRankHandler_not_invalid cur s c start limit seasonId hfrom hlimit hseason,
    ?_, ?_, ?_⟩
  · intro ev hev f l hp
    have h := getVaultsByRankHandler_page_args cur s c start limit hfrom hlimit ev hev _ hp
    cases h
    refine ⟨rfl, by omega, by omega⟩
  · intro ev hev f l hp
    have h := getVaultsByVolumeHandler_page_args s c start limit hfrom hlimit ev hev _ hp
    cases h
    refine ⟨rfl, by omega, by omega⟩
  · intro count volume hcount hvolume
    refine ⟨getVaultsByVolumeHandler_trace s c start limit count volume hfrom hlimit hcount
      hvolume, ?_⟩
    intro vaults hvaults
    rw [getVaultsByVolumeHandler_run s c start limit count volume vaults hfrom hlimit hcount
      hvolume hvaults]
    refine ⟨_, rfl, by simp only [List.length_map, volumeRankLoop_length], ?_⟩
    apply List.ext_getElem?
    intro i
    simp only [List.getElem?_map, volumeRankLoop_getElem?]
    cases vaults[i]? with
    | none => simp only [Option.map_none']
    | some v => simp only [Option.map_some', volumeResponse]
  · intro count balance lp nft hseason hcount hbalance hlp hnft
    refine ⟨getVaultsByRankHandler_current_trace cur s c start limit count balance lp nft hfrom
      hlimit hseason hcount hbalance hlp hnft, ?_⟩
    intro vaults hvaults
    rw [getVaultsByRankHandler_current cur s c start limit count balance lp nft vaults hfrom
      hlimit hseason hcount hbalance hlp hnft hvaults]
    refine ⟨_, rfl, by simp only [List.length_map], ?_⟩
    simp only [List.map_map]
    rfl
  · intro seasonId count balance lp nft total hseason hclosed hcount hbalance hlp hnft htotal
    have hrun := getVaultsByRankHandler_closed cur s c start limit seasonId count balance lp nft
      total (s.GetLeaderVaultsBySeason seasonId start (min limit 100)) hfrom hlimit hseason
      hclosed hcount hbalance hlp hnft htotal rfl
    refine ⟨by rw [hrun]; rfl, ?_⟩
    intro vaults hvaults
    rw [hrun, hvaults]
    refine ⟨_, rfl, by simp only [List.length_map, closedSeasonLoop_length], ?_⟩
    apply List.ext_getElem?
    intro i
    simp only [List.getElem?_map, closedSeasonLoop_getElem?]
    cases vaults[i]? with
    | none => simp only [Option.map_none']
    | some v =>
      simp only [Option.map_some', rankResponse, (closedSeasonVault_fields _ _ _ _ _).1]

/-- Witness of C8 at the request `limit=250` over leaderboards of 150 vaults, for the volume
handler, the rank handler in the current season and the rank handler in a closed season:
each asks the store for 100 vaults from 0 and serves 100. -/
theorem C8_limit_clamped_to_max_page_size_witness :
    (getVaultsByVolumeHandler
          (sample.store (sample.season 150) (fun _ => sample.season 150) (fun _ => .fin 0))
          (sample.request [("limit", "250")] [])).trace
        = [.store .GetLeaderVaultCount, .store .GetLeaderVaultTotalVolume,
           .store (.GetSwapLeaderVaults 0 (min 250 100))]
      ∧ (getVaultsByRankHandler 0
          (sample.store (sample.season 150) (fun _ => sample.season 150) (fun _ => .fin 0))
          (sample.request [("limit", "250")] [])).trace
        = [.store .GetLeaderVaultCount, .store .GetLeaderVaultTotalBalance,
           .store .GetLeaderVaultTotalLP, .store .GetLeaderVaultTotalNFT,
           .store (.GetLeaderVaults 0 (min 250 100))]
      ∧ (getVaultsByRankHandler 1
          (sample.store (sample.season 150) (fun _ => sample.season 150) (fun _ => .fin 0))
          (sample.request [("limit", "250")] [])).trace.take 6
        = [.store (.GetLeaderVaultCountBySeason 0),
           .store (.GetLeaderVaultTotalBalanceBySeason 0),
           .store (.GetLeaderVaultTotalLPBySeason 0),
           .store (.GetLeaderVaultTotalNFTBySeason 0),
           .store (.GetLeaderVaultTotalPointsBySeason 0),
           .store (.GetLeaderVaultsBySeason 0 0 (min 250 100))]
      ∧ min (250 : Int) 100 = 100
      ∧ (getVaultsByVolumeHandler
          (sample.store (sample.season 150) (fun _ => sample.season 150) (fun _ => .fin 0))
          (sample.request [("limit", "250")] [])).result.toOption.map
            (fun resp => resp.Vaults.length) = some 100
      ∧ (getVaultsByRankHandler 0
          (sample.store (sample.season 150) (fun _ => sample.season 150) (fun _ => .fin 0))
          (sample.request [("limit", "250")] [])).result.toOption.map
            (fun resp => resp.Vaults.length) = some 100
      ∧ (getVaultsByRankHandler 1
          (sample.store (sample.season 150) (fun _ => sample.season 150) (fun _ => .fin 0))
          (sample.request [("limit", "250")] [])).result.toOption.map
            (fun resp => resp.Vaults.length) = some 100 := by
  have hfrom : strconv.ParseInt ((sample.request [("limit", "250")] []).DefaultQuery "from" "0")
      = some 0 := by decide
  have hlimit : strconv.Atoi ((sample.request [("limit", "250")] []).DefaultQuery "limit" "10")
      = some 250 := by decide
  have hseason : strconv.ParseUint
      ((sample.request [("limit", "250")] []).DefaultQuery "season" "0") = some 0 := by decide
  have h0 := C8_limit_clamped_to_max_page_size 0
    (sample.store (sample.season 150) (fun _ => sample.season 150) (fun _ => .fin 0))
    (sample.request [("limit", "250")] []) 0 250 hfrom hlimit
  have h1 := C8_limit_clamped_to_max_page_size 1
    (sample.store (sample.season 150) (fun _ => sample.season 150) (fun _ => .fin 0))
    (sample.request [("limit", "250")] []) 0 250 hfrom hlimit
  refine ⟨(h0.2.2.2.2.2.2.2.1 _ _ rfl rfl).1, (h0.2.2.2.2.2.2.2.2.1 _ _ _ _ hseason rfl rfl rfl rfl).1,
    (h1.2.2.2.2.2.2.2.2.2 0 _ _ _ _ _ hseason (by decide) rfl rfl rfl rfl rfl).1,
    h0.2.1 (by decide), by decide!, by decide!, by decide!⟩

end handlers
